import Mathlib

/-!
# amp-mcp: the request handler of `src/index.js`

A shallow embedding of the subprocess orchestration core of the amp MCP server:
`formatResult`, `parseStreamResult`, `loadState`, `resolveProjectKey` and the
`CallToolRequestSchema` handler.  JavaScript strings are Lean strings, JSON values are
the inductive type `Json`, `undefined` is `none`, a thrown exception is `Except.error`.
The runtime services the program calls but does not define (`JSON.parse`,
`JSON.stringify`, `fs.realpathSync`, the child process, the clock) are parameters.
-/

set_option autoImplicit false
set_option maxRecDepth 100000

/-! ## Strings -/

/-- White space and line terminators removed by `String.prototype.trim`. -/
def isJsSpace (c : Char) : Bool :=
  c.val = 0x09 || c.val = 0x0A || c.val = 0x0B || c.val = 0x0C || c.val = 0x0D ||
  c.val = 0x20 || c.val = 0xA0 || c.val = 0x1680 ||
  (0x2000 ≤ c.val && c.val ≤ 0x200A) ||
  c.val = 0x2028 || c.val = 0x2029 || c.val = 0x202F || c.val = 0x205F ||
  c.val = 0x3000 || c.val = 0xFEFF

/-- Strip leading, then trailing, white space from a list of characters. -/
def trimChars (l : List Char) : List Char :=
  ((l.dropWhile isJsSpace).reverse.dropWhile isJsSpace).reverse

/-- The method `s.trim()`. -/
def jsTrim (s : String) : String := ⟨trimChars s.data⟩

/-- The expression `a || b` on two strings: `a` unless it is empty. -/
def jsOr (a b : String) : String := if a.length > 0 then a else b

/-- One step of `split(/\r?\n/)`, scanning from the right: `c` is the character in front
of `rest`, whose segments are already known. A carriage return directly in front of a
line feed belongs to the separator. -/
def splitStep (c : Char) (rest : List Char) : List (List Char) → List (List Char)
  | [] => [[c]]
  | cur :: more =>
    if c = '\n' then [] :: cur :: more
    else if c = '\r' ∧ rest.head? = some '\n' then cur :: more
    else (c :: cur) :: more

/-- The segments of `split(/\r?\n/)`. -/
def splitLines : List Char → List (List Char)
  | [] => [[]]
  | c :: rest => splitStep c rest (splitLines rest)

/-- The lines of a stream: `stdout.split(/\r?\n/).filter(Boolean)`. -/
def streamLines (stdout : String) : List String :=
  ((splitLines stdout.data).filter (fun l => !l.isEmpty)).map String.mk

/-! ## Result formatter -/

/-- The value `{ code, stdout, stderr, timedOut }` resolved by `runCommand`;
`code` is `none` when the child was killed by a signal (`null`). -/
structure ProcResult where
  code : Option Int
  stdout : String
  stderr : String
  timedOut : Bool

/-- The exit code as a template literal prints it. -/
def codeText : Option Int → String
  | none => "null"
  | some n => toString n

/-- The function `formatResult(result, parsedText, parsedError)`. -/
def formatResult (result : ProcResult) (parsedText parsedError : String) : String :=
  let out := jsTrim parsedText
  let parsedErr := jsTrim parsedError
  let err := jsTrim result.stderr
  if result.timedOut then
    jsTrim ("error: Amp timed out\n" ++ jsOr err (jsOr (jsTrim result.stdout) out))
  else if parsedErr.length > 0 then
    jsTrim ("error: " ++ parsedErr)
  else if result.code = some 0 then
    if out.length > 0 then out
    else if err.length > 0 then err
    else "ok: Amp completed with no output"
  else
    jsTrim ("error: Amp exited with code " ++ codeText result.code ++ "\n" ++
      jsOr err (jsOr (jsTrim result.stdout) out))

/-- The first non-empty string of a list, the empty string if there is none
(the reading of "first non-empty of" used to state the formatter's contract). -/
def firstNonEmpty : List String → String
  | [] => ""
  | s :: rest => if s = "" then firstNonEmpty rest else s

/-! ## JSON values -/

/-- A value produced by `JSON.parse`. A number is represented by the two observations
the program can make of it: whether it is non-zero (its truthiness) and the text that
`String(n)` prints for it (for instance `1e+21`). An object is its list of own
properties. -/
inductive Json where
  | null : Json
  | bool (b : Bool) : Json
  | num (nonzero : Bool) (printed : String) : Json
  | str (s : String) : Json
  | arr (items : List Json) : Json
  | obj (props : List (String × Json)) : Json

namespace Json

/-- Truthiness of a value (`!!v`). -/
def truthy : Json → Bool
  | null => false
  | bool b => b
  | num nonzero _ => nonzero
  | str s => s ≠ ""
  | arr _ => true
  | obj _ => true

/-- The test `typeof v === "object"` (true of `null`, arrays and objects). -/
def typeofObject : Json → Bool
  | null => true
  | arr _ => true
  | obj _ => true
  | _ => false

/-- A read `v.name` of one of the property names the program spells out (`session_id`,
`type`, `message`, `content`, `text`, `result`, `subtype`, `error`, `projects`) on a
value that is neither `null` nor `undefined`. Primitives, arrays and the prototypes carry
none of these names, so only an object's own properties answer. -/
def field (v : Json) (k : String) : Option Json :=
  match v with
  | obj props => props.lookup k
  | _ => none

end Json

/-- Truthiness of a possibly `undefined` value. -/
def truthyOpt : Option Json → Bool
  | none => false
  | some v => v.truthy

/-- The optional chain `v?.name`: `undefined` when `v` is `undefined` or `null`. -/
def optField (v : Option Json) (k : String) : Option Json :=
  match v with
  | none => none
  | some Json.null => none
  | some x => x.field k

/-- The expression `a || b` on possibly `undefined` values. -/
def orElseJs (a b : Option Json) : Option Json := if truthyOpt a then a else b

/-- The test `v === s` against a string literal. -/
def strictEqStr (v : Option Json) (s : String) : Bool :=
  match v with
  | some (Json.str t) => decide (t = s)
  | _ => false

/-! ## Stream protocol decoder -/

/-- The text of one content part, when `item?.type === "text"` and
`typeof item.text === "string"`. -/
def partText (item : Json) : Option String :=
  if strictEqStr (optField (some item) "type") "text" then
    match item.field "text" with
    | some (Json.str t) => some t
    | _ => none
  else none

/-- The array `content.filter(...).map((item) => item.text)`. -/
def textParts (items : List Json) : List String := items.filterMap partText

/-- The four loop variables of `parseStreamResult`; `sessionId` is `none` for `null`. -/
structure Scan where
  sessionId : Option Json
  resultText : String
  lastAssistantText : String
  errorText : String

/-- The values of the loop variables before the first line. -/
def Scan.init : Scan := ⟨none, "", "", ""⟩

/-- The statement `if (parsed.session_id && !sessionId) sessionId = parsed.session_id`. -/
def sessionStep (parsed : Json) (acc : Scan) : Scan :=
  if truthyOpt (parsed.field "session_id") && acc.sessionId.isNone then
    { acc with sessionId := parsed.field "session_id" }
  else acc

/-- The test `parsed.type === "assistant"`. -/
def isAssistant (parsed : Json) : Bool := strictEqStr (parsed.field "type") "assistant"

/-- The test `parsed.type === "result"`. -/
def isResult (parsed : Json) : Bool := strictEqStr (parsed.field "type") "result"

/-- The elements of `parsed.message?.content || []` when that value is an array;
`none` when it is any other truthy value, on which the call of `.filter` throws. -/
def contentItems (parsed : Json) : Option (List Json) :=
  match orElseJs (optField (parsed.field "message") "content") (some (Json.arr [])) with
  | some (Json.arr items) => some items
  | _ => none

/-- The block `if (parsed.type === "assistant") { ... }`. The `TypeError` of a content
that is not an array is caught by nothing in `parseStreamResult`. -/
def assistantStep (parsed : Json) (acc : Scan) : Except String Scan :=
  if isAssistant parsed then
    match contentItems parsed with
    | some items =>
      if (textParts items).length > 0 then
        .ok { acc with lastAssistantText := jsTrim ("\n".intercalate (textParts items)) }
      else .ok acc
    | none => .error "TypeError: content.filter is not a function"
  else .ok acc

/-- The block `if (parsed.type === "result") { ... }`. -/
def resultStep (parsed : Json) (acc : Scan) : Scan :=
  if isResult parsed then
    let acc1 :=
      match parsed.field "result" with
      | some (Json.str r) => { acc with resultText := jsTrim r }
      | _ => acc
    if truthyOpt (parsed.field "subtype") then
      match parsed.field "error" with
      | some (Json.str e) => { acc1 with errorText := jsTrim e }
      | _ => acc1
    else acc1
  else acc

/-- What the loop body does with a successfully parsed value. -/
def scanValue (parsed : Json) (acc : Scan) : Except String Scan :=
  if parsed.truthy && parsed.typeofObject then
    match assistantStep parsed (sessionStep parsed acc) with
    | .error e => .error e
    | .ok acc2 => .ok (resultStep parsed acc2)
  else .ok acc

/-- One iteration of the loop: a line on which `JSON.parse` throws is skipped. -/
def scanLine (jsonParse : String → Option Json) (acc : Scan) (line : String) :
    Except String Scan :=
  match jsonParse line with
  | none => .ok acc
  | some parsed => scanValue parsed acc

/-- The loop over all lines. -/
def scanLines (jsonParse : String → Option Json) : Scan → List String → Except String Scan
  | acc, [] => .ok acc
  | acc, line :: rest =>
    match scanLine jsonParse acc line with
    | .error e => .error e
    | .ok acc1 => scanLines jsonParse acc1 rest

/-- The value `{ sessionId, resultText, errorText }` returned by `parseStreamResult`. -/
structure Decoded where
  sessionId : Option Json
  resultText : String
  errorText : String

/-- The statements after the loop: the fallback to the last assistant text. -/
def finish (acc : Scan) : Decoded :=
  { sessionId := acc.sessionId
    resultText :=
      if acc.resultText = "" ∧ acc.lastAssistantText ≠ "" then acc.lastAssistantText
      else acc.resultText
    errorText := acc.errorText }

/-- The function `parseStreamResult(stdout)`. -/
def parseStreamResult (jsonParse : String → Option Json) (stdout : String) :
    Except String Decoded :=
  match scanLines jsonParse Scan.init (streamLines stdout) with
  | .error e => .error e
  | .ok acc => .ok (finish acc)

/-! ## Conversions to strings and property keys -/

namespace Json

mutual
/-- The conversion `String(v)`, as a template literal and a computed property key
perform it; `none` when it throws a `TypeError`. An object prints as `[object Object]`
through the inherited `toString`; an own property `toString`, which in a parsed value is
never a function, hides that method, and the fallback `valueOf` returns no primitive,
so the conversion throws. -/
def toJsString : Json → Option String
  | null => some "null"
  | bool b => some (if b then "true" else "false")
  | num _ printed => some printed
  | str s => some s
  | arr items => joinItems items
  | obj props => if (props.lookup "toString").isSome then none else some "[object Object]"
termination_by structural x => x
/-- The method `items.join(",")`, in which `null` prints as the empty string. -/
def joinItems : List Json → Option String
  | [] => some ""
  | x :: rest =>
    match (match x with
      | null => some ""
      | y => toJsString y), joinItems rest with
    | some head, some tail =>
      some (head ++ (match rest with
        | [] => ""
        | _ => ",") ++ tail)
    | _, _ => none
termination_by structural x => x
end

end Json

/-- The number a list of decimal digits denotes. -/
def digitsValue (digits : List Char) : Nat :=
  digits.foldl (fun acc c => 10 * acc + (c.toNat - 48)) 0

/-- The array index a property key denotes, if it is one: a canonical numeric string
(`0`, or decimal digits with no leading zero) below `2^32 - 1`. -/
def arrayIndex (k : String) : Option Nat :=
  match k.data with
  | [] => none
  | c :: rest =>
    if (c :: rest).all Char.isDigit = true ∧ (c ≠ '0' ∨ rest = []) ∧
        digitsValue (c :: rest) < 4294967295 then
      some (digitsValue (c :: rest))
    else none

/-- The write `items[i] = v`; elements skipped over print as `null` when serialised. -/
def setIndex (items : List Json) (i : Nat) (v : Json) : List Json :=
  if i < items.length then items.set i v
  else items ++ List.replicate (i - items.length) Json.null ++ [v]

/-- Write an own property: replace the value where the key exists, else append it. -/
def setKey : List (String × Json) → String → Json → List (String × Json)
  | [], k, v => [(k, v)]
  | (k1, v1) :: rest, k, v =>
    if k1 = k then (k, v) :: rest else (k1, v1) :: setKey rest k v

/-- The read `target[k]` with a computed key, as far as a following `?.session_id` can
tell: an inherited property (a method of the prototype, or the prototype itself under
`__proto__`) has no `session_id` and is rendered as `undefined`. -/
def Json.elem (target : Json) (k : String) : Option Json :=
  match target with
  | Json.obj props => props.lookup k
  | Json.arr items =>
    if k = "length" then
      some (Json.num (decide (items.length ≠ 0)) (toString items.length))
    else
      match arrayIndex k with
      | some i => items.get? i
      | none => none
  | _ => none

/-- The write `target[k] = v` of an object `v`, as far as `JSON.stringify` can tell
afterwards. On an object without an own `__proto__` property the key `__proto__` replaces
the prototype and adds no property; on an array a key that is no index adds a property
that is not serialised, and the key `length` throws. -/
def assignElem (target : Json) (k : String) (v : Json) : Except String Json :=
  match target with
  | Json.obj props =>
    if k = "__proto__" ∧ (props.lookup k).isNone then .ok (Json.obj props)
    else .ok (Json.obj (setKey props k v))
  | Json.arr items =>
    match arrayIndex k with
    | some i => .ok (Json.arr (setIndex items i v))
    | none =>
      if k = "length" then .error "RangeError: Invalid array length"
      else .ok (Json.arr items)
  | other => .ok other

/-! ## Session store -/

/-- The value `loadState` returns: a plain object, or (when the file holds a JSON array)
that array carrying the extra property `projects` that `loadState` puts on it. -/
inductive StoreState where
  | object (props : List (String × Json)) : StoreState
  | array (items : List Json) (projects : Json) : StoreState

/-- The literal `{ projects: {} }`. -/
def emptyStore : StoreState := StoreState.object [("projects", Json.obj [])]

/-- The function `loadState()`; `file` is the content of the state file, `none` when
`fs.readFileSync` throws. -/
def loadState (jsonParse : String → Option Json) (file : Option String) : StoreState :=
  match file with
  | none => emptyStore
  | some raw =>
    match jsonParse raw with
    | none => emptyStore
    | some parsed =>
      if !parsed.truthy || !parsed.typeofObject then emptyStore
      else
        match parsed with
        | Json.obj props =>
          match props.lookup "projects" with
          | some p =>
            if !p.truthy || !p.typeofObject then
              StoreState.object (setKey props "projects" (Json.obj []))
            else StoreState.object props
          | none => StoreState.object (setKey props "projects" (Json.obj []))
        | Json.arr items => StoreState.array items (Json.obj [])
        | _ => emptyStore

/-- The value of `state.projects`. -/
def StoreState.projects : StoreState → Json
  | StoreState.object props => (props.lookup "projects").getD Json.null
  | StoreState.array _ p => p

/-- The state after `state.projects = p`. -/
def StoreState.setProjects : StoreState → Json → StoreState
  | StoreState.object props, p => StoreState.object (setKey props "projects" p)
  | StoreState.array items _, p => StoreState.array items p

/-- What `JSON.stringify(state, null, 2)` is applied to: the own enumerable content;
a property put on an array is not part of it. -/
def StoreState.toJson : StoreState → Json
  | StoreState.object props => Json.obj props
  | StoreState.array items _ => Json.arr items

/-- The function `resolveProjectKey(projectDir)`; `realpath` is `fs.realpathSync` on
whatever value it is handed, `none` where it throws. -/
def resolveProjectKey (realpath : Json → Option String) (projectDir : Json) : Json :=
  match realpath projectDir with
  | some q => Json.str q
  | none => projectDir

/-! ## Request handler -/

/-- The part of `request.params` the handler reads; `arguments` is `none` when
absent, in which case `?? {}` supplies an empty object. -/
structure Request where
  name : String
  arguments : Option (List (String × Json))

/-- One destructured argument: `undefined` when the request does not carry it. -/
def Request.arg (request : Request) (k : String) : Option Json :=
  (request.arguments.getD []).lookup k

/-- The options object passed to `runCommand`. The timeout is kept as the argument
`timeout_sec` it is computed from, and the fixed colour overrides of the child
environment are left out. -/
structure SpawnArgs where
  command : Json
  args : List String
  cwd : Json
  stdin : Option Json
  timeoutSec : Option Json

/-- What the handler depends on outside its own code: environment variables, the
working directory, the clock, the file system, the JSON codec and the child process
(`run` gives the resolved outcome, or the error `runCommand` rejects with). -/
structure World where
  defaultModeEnv : Option String
  ampBinEnv : Option String
  cwd : String
  now : String
  realpath : Json → Option String
  jsonParse : String → Option Json
  jsonStringify : Json → String
  canWrite : Bool
  run : SpawnArgs → Except String ProcResult

/-- An action of the handler on the outside world, in the order performed. -/
inductive Effect where
  | resolveKey (projectDir : Json) : Effect
  | readState : Effect
  | spawn (call : SpawnArgs) : Effect
  | writeState (content : String) : Effect

/-- The result of one call of the handler: the returned text or the thrown error, the
actions performed, and the content of the state file afterwards. -/
structure Outcome where
  result : Except String String
  trace : List Effect
  file : Option String

/-- The constant `DEFAULT_MODE`. -/
def defaultMode (w : World) : String :=
  match w.defaultModeEnv with
  | some m => if m ≠ "" then m else "free"
  | none => "free"

/-- The test `typeof prompt !== "string" || prompt.trim().length === 0`, negated: the
prompt when it is acceptable. -/
def validPrompt (prompt : Option Json) : Option String :=
  match prompt with
  | some (Json.str p) => if (jsTrim p).length = 0 then none else some p
  | _ => none

/-- The expression `a || d` where `d` is a defined value. -/
def orDefault (a : Option Json) (d : Json) : Json :=
  match a with
  | some v => if v.truthy then v else d
  | none => d

/-- The expression `process.env.AMP_BIN || "amp"`. -/
def defaultBin (w : World) : String :=
  match w.ampBinEnv with
  | some b => if b ≠ "" then b else "amp"
  | none => "amp"

/-- The error a value throws when it cannot be converted to a string. -/
def conversionError : String := "TypeError: Cannot convert object to primitive value"

/-- The value `storedThread` of the resume path:
`thread_id || state.projects[projectKey]?.session_id`. The right operand is evaluated
only when `thread_id` is falsy, and then converts `projectKey` to a property key. -/
def storedThread (threadId : Option Json) (state : StoreState) (projectKey : Json) :
    Except String (Option Json) :=
  if truthyOpt threadId then .ok threadId
  else
    match projectKey.toJsString with
    | some k => .ok (optField (state.projects.elem k) "session_id")
    | none => .error conversionError

/-- The value `effectivePrompt`: `.ok none` where the resume path returns its error
text, `.error` where the lookup or the template literal throws. -/
def effectivePrompt (name : String) (threadId : Option Json) (state : StoreState)
    (projectKey : Json) (prompt : String) : Except String (Option String) :=
  if name = "amp_resume" then
    match storedThread threadId state projectKey with
    | .error e => .error e
    | .ok none => .ok none
    | .ok (some t) =>
      if t.truthy then
        match t.toJsString with
        | some text => .ok (some ("@" ++ text ++ "\n" ++ prompt))
        | none => .error conversionError
      else .ok none
  else .ok (some prompt)

/-- The argument list `args`; `(mode || DEFAULT_MODE).trim()` throws when `mode` is
truthy and not a string. -/
def buildArgs (allowAll mode : Option Json) (dflt effPrompt : String) :
    Except String (List String) :=
  let args0 := ["--log-level", "error", "--no-ide", "--no-jetbrains"]
  let args1 := if truthyOpt allowAll then "--dangerously-allow-all" :: args0 else args0
  match orDefault mode (Json.str dflt) with
  | Json.str m =>
    let modeArg := jsTrim m
    let args2 := if modeArg ≠ "" then "-m" :: modeArg :: args1 else args1
    .ok (args2 ++ ["-x", effPrompt, "--stream-json"])
  | _ => .error "TypeError: (mode || DEFAULT_MODE).trim is not a function"

/-- The statements after `runCommand` resolves: decode, format, update the store. -/
def afterRun (w : World) (file : Option String) (state : StoreState) (projectKey : Json)
    (trace : List Effect) (result : ProcResult) : Outcome :=
  match parseStreamResult w.jsonParse result.stdout with
  | .error e => ⟨.error e, trace, file⟩
  | .ok parsed =>
    let text := formatResult result parsed.resultText parsed.errorText
    match parsed.sessionId with
    | some sid =>
      if sid.truthy then
        let record := Json.obj [("session_id", sid), ("updated_at", Json.str w.now)]
        match projectKey.toJsString with
        | none => ⟨.error conversionError, trace, file⟩
        | some k =>
          match assignElem state.projects k record with
          | .error e => ⟨.error e, trace, file⟩
          | .ok projects =>
            let content := w.jsonStringify (state.setProjects projects).toJson
            if w.canWrite then
              ⟨.ok text, trace ++ [Effect.writeState content], some content⟩
            else ⟨.error "Error: cannot write the state file", trace, file⟩
      else ⟨.ok text, trace, file⟩
    | none => ⟨.ok text, trace, file⟩

/-- The handler registered for `CallToolRequestSchema`, run on the state file `file`. -/
def handleCall (w : World) (file : Option String) (request : Request) : Outcome :=
  if request.name ≠ "amp_run" ∧ request.name ≠ "amp_resume" then
    ⟨.error ("Unknown tool: " ++ request.name), [], file⟩
  else
    match validPrompt (request.arg "prompt") with
    | none => ⟨.error "prompt is required and must be a non-empty string", [], file⟩
    | some prompt =>
      let projectDir := orDefault (request.arg "project_dir") (Json.str w.cwd)
      let projectKey := resolveProjectKey w.realpath projectDir
      let state := loadState w.jsonParse file
      let trace := [Effect.resolveKey projectDir, Effect.readState]
      match effectivePrompt request.name (request.arg "thread_id") state projectKey prompt with
      | .error e => ⟨.error e, trace, file⟩
      | .ok none =>
        ⟨.ok "error: no stored session for this project; run amp_run first or pass thread_id",
          trace, file⟩
      | .ok (some effPrompt) =>
        match buildArgs (request.arg "dangerously_allow_all") (request.arg "mode")
            (defaultMode w) effPrompt with
        | .error e => ⟨.error e, trace, file⟩
        | .ok args =>
          let call : SpawnArgs :=
            { command := orDefault (request.arg "amp_bin") (Json.str (defaultBin w))
              args := args
              cwd := projectDir
              stdin := request.arg "stdin"
              timeoutSec := request.arg "timeout_sec" }
          match w.run call with
          | .error e => ⟨.error e, trace ++ [Effect.spawn call], file⟩
          | .ok result =>
            afterRun w file state projectKey (trace ++ [Effect.spawn call]) result

/-- The calls of `runCommand` among the actions performed. -/
def spawnCalls : List Effect → List SpawnArgs
  | [] => []
  | Effect.spawn call :: rest => call :: spawnCalls rest
  | _ :: rest => spawnCalls rest

/-- The project key the handler resolves for a request:
`resolveProjectKey(project_dir || process.cwd())`. -/
def projectKeyOf (w : World) (request : Request) : Json :=
  resolveProjectKey w.realpath (orDefault (request.arg "project_dir") (Json.str w.cwd))

/-- The store a run writes when the loaded store is the object `props`, whose `projects`
is the object `pprops`, and the decoded session identifier is `s`. -/
def storeAfterRun (props pprops : List (String × Json)) (key : String) (s : Json)
    (now : String) : Json :=
  Json.obj (setKey props "projects" (Json.obj (setKey pprops key
    (Json.obj [("session_id", s), ("updated_at", Json.str now)]))))

/-! ## Vocabulary of the stream properties -/

/-- The payload a result event contributes as result text: defined when
`parsed.type === "result"` and `typeof parsed.result === "string"`. -/
def resultPayload (parsed : Json) : Option String :=
  if isResult parsed then
    match parsed.field "result" with
    | some (Json.str r) => some r
    | _ => none
  else none

/-- The text parts of an assistant event; no parts for any other value. -/
def assistantParts (parsed : Json) : List String :=
  if isAssistant parsed then textParts ((contentItems parsed).getD []) else []

/-- The session identifier a parsed value carries: its `session_id` when truthy. -/
def sessionOf (parsed : Json) : Option Json :=
  if truthyOpt (parsed.field "session_id") then parsed.field "session_id" else none

/-- A parsed value on which the loop body cannot throw: anything but an assistant
event whose `message.content` is truthy and not an array. -/
def wellShaped (parsed : Json) : Bool :=
  !isAssistant parsed || (contentItems parsed).isSome

/-- A `JSON.parse` known on a finite table of texts, throwing on every other text;
it serves to run the model on concrete streams. -/
def tableParse (table : List (String × Json)) (text : String) : Option Json :=
  table.lookup text

/-- The effect of the assistant block on the loop variables when it does not throw. -/
def assistantPure (parsed : Json) (acc : Scan) : Scan :=
  if (assistantParts parsed).length > 0 then
    { acc with lastAssistantText := jsTrim ("\n".intercalate (assistantParts parsed)) }
  else acc

/-- The effect of the loop body on the loop variables for a value it does not throw on. -/
def scanPure (parsed : Json) (acc : Scan) : Scan :=
  resultStep parsed (assistantPure parsed (sessionStep parsed acc))

/-- The effect of one line on the loop variables when the loop body does not throw. -/
def linePure (jsonParse : String → Option Json) (acc : Scan) (line : String) : Scan :=
  match jsonParse line with
  | none => acc
  | some parsed => scanPure parsed acc

/-! ## Sample streams -/

/-- A line carrying the session identifier `T1`. -/
def lineT1 : String := "\x7b\"session_id\":\"T1\"\x7d"

/-- A line carrying the session identifier `T2`. -/
def lineT2 : String := "\x7b\"session_id\":\"T2\"\x7d"

/-- An assistant event with the single text part `hi`. -/
def lineHi : String :=
  "\x7b\"type\":\"assistant\",\"message\":\x7b\"content\":[\x7b\"type\":\"text\",\"text\":\"hi\"\x7d]\x7d\x7d"

/-- An assistant event with a tool call and no text part. -/
def lineTool : String :=
  "\x7b\"type\":\"assistant\",\"message\":\x7b\"content\":[\x7b\"type\":\"tool_use\",\"name\":\"Read\"\x7d]\x7d\x7d"

/-- A result event with the payload ` done `. -/
def lineDone : String := "\x7b\"type\":\"result\",\"result\":\" done \"\x7d"

/-- A result event with an empty payload. -/
def lineEmptyResult : String := "\x7b\"type\":\"result\",\"result\":\"\"\x7d"

/-- The value of `lineHi`. -/
def valueHi : Json :=
  Json.obj [("type", Json.str "assistant"),
    ("message", Json.obj [("content", Json.arr
      [Json.obj [("type", Json.str "text"), ("text", Json.str "hi")]])])]

/-- The value of `lineTool`. -/
def valueTool : Json :=
  Json.obj [("type", Json.str "assistant"),
    ("message", Json.obj [("content", Json.arr
      [Json.obj [("type", Json.str "tool_use"), ("name", Json.str "Read")]])])]

/-- The value of `lineDone`. -/
def valueDone : Json := Json.obj [("type", Json.str "result"), ("result", Json.str " done ")]

/-- The value of `lineEmptyResult`. -/
def valueEmptyResult : Json :=
  Json.obj [("type", Json.str "result"), ("result", Json.str "")]

/-- The values `JSON.parse` gives the sample lines. -/
def sampleTable : List (String × Json) :=
  [ (lineT1, Json.obj [("session_id", Json.str "T1")]),
    (lineT2, Json.obj [("session_id", Json.str "T2")]),
    (lineHi, valueHi),
    (lineTool, valueTool),
    (lineDone, valueDone),
    (lineEmptyResult, valueEmptyResult) ]

/-- The sample parser: `JSON.parse` on the sample lines, throwing on any other text. -/
def sampleParse : String → Option Json := tableParse sampleTable

/-- The state file after the sample run, as `JSON.stringify(state, null, 2)` prints it. -/
def sampleStoreText : String :=
  "\x7b\n  \"projects\": \x7b\n    \"/home/u/proj\": \x7b\n      \"session_id\": \"T1\",\n      \"updated_at\": \"2024-01-01T00:00:00.000Z\"\n    \x7d\n  \x7d\n\x7d"

/-- The value of `sampleStoreText`. -/
def sampleStore : Json :=
  Json.obj [("projects", Json.obj [("/home/u/proj",
    Json.obj [("session_id", Json.str "T1"),
      ("updated_at", Json.str "2024-01-01T00:00:00.000Z")])])]

/-- A sample world: `/home/u/proj` is the one directory and resolves to itself, the
child prints a session line and a result line and exits with code 0, and the codec is
known on the sample lines and on the one store the sample run writes. -/
def sampleWorld : World :=
  { defaultModeEnv := none
    ampBinEnv := none
    cwd := "/home/u/proj"
    now := "2024-01-01T00:00:00.000Z"
    realpath := fun d =>
      match d with
      | Json.str p => if p = "/home/u/proj" then some p else none
      | _ => none
    jsonParse := tableParse (sampleTable ++ [(sampleStoreText, sampleStore)])
    jsonStringify := fun _ => sampleStoreText
    canWrite := true
    run := fun _ => .ok ⟨some 0, lineT1 ++ "\n" ++ lineDone ++ "\n", "", false⟩ }

/-- The sample world with a codec that also knows the text `[]`, the empty array. -/
def arrayWorld : World :=
  { sampleWorld with
    jsonParse := tableParse (sampleTable ++ [("[]", Json.arr [])])
    jsonStringify := fun j =>
      match j with
      | Json.arr [] => "[]"
      | _ => sampleStoreText }

/-- An assistant event whose `message.content` is the string `hi`, not a list of
parts. -/
def lineText : String :=
  "\x7b\"type\":\"assistant\",\"message\":\x7b\"content\":\"hi\"\x7d\x7d"

/-- The value of `lineText`. -/
def valueText : Json :=
  Json.obj [("type", Json.str "assistant"), ("message", Json.obj [("content", Json.str "hi")])]

/-- The sample parser extended to `lineText`. -/
def faultyParse : String → Option Json := tableParse (sampleTable ++ [(lineText, valueText)])

/-- A state file whose `projects` is an empty array, as `JSON.stringify(state, null, 2)`
prints it. -/
def listStoreText : String := "\x7b\n  \"projects\": []\n\x7d"

/-- The value of `listStoreText`. -/
def listStore : Json := Json.obj [("projects", Json.arr [])]

/-- The sample world with a codec that also knows `listStoreText`. -/
def listWorld : World :=
  { sampleWorld with
    jsonParse := tableParse (sampleTable ++ [(listStoreText, listStore)])
    jsonStringify := fun j =>
      match j with
      | Json.obj [(_, Json.arr [])] => listStoreText
      | _ => sampleStoreText }

/-- An object with an own property `toString`, which cannot be converted to a string. -/
def unprintable : Json := Json.obj [("toString", Json.num true "1")]

/-! ## Properties -/

theorem length_pos_iff_ne_empty (s : String) : s.length > 0 ↔ s ≠ "" := by
  rw [String.length, gt_iff_lt, List.length_pos, ne_eq, ne_eq, String.ext_iff]

theorem trimChars_eq_rdropWhile (l : List Char) :
    trimChars l = (l.dropWhile isJsSpace).rdropWhile isJsSpace := rfl

theorem trimChars_last (l : List Char) (h : trimChars l ≠ []) :
    isJsSpace ((trimChars l).getLast h) = false := by
  have := List.rdropWhile_last_not isJsSpace (l.dropWhile isJsSpace) h
  simpa using this

theorem trimChars_append_trimmed (a q : List Char) (c : Char) (hc : isJsSpace c = false)
    (hq : trimChars q ≠ []) :
    trimChars (c :: a ++ trimChars q) = c :: a ++ trimChars q := by
  rw [trimChars_eq_rdropWhile (c :: a ++ trimChars q)]
  have h1 : (c :: a ++ trimChars q).dropWhile isJsSpace = c :: a ++ trimChars q := by
    simp [List.dropWhile, hc]
  rw [h1, List.rdropWhile_eq_self_iff]
  intro hl
  have : (c :: a ++ trimChars q).getLast hl = (trimChars q).getLast hq :=
    List.getLast_append_of_ne_nil (l := c :: a) hq
  rw [this, trimChars_last q hq]
  simp

theorem jsTrim_prefixed (pre e : String) (c : Char) (a : List Char)
    (hpre : pre.data = c :: a) (hc : isJsSpace c = false) (he : jsTrim e ≠ "") :
    jsTrim (pre ++ jsTrim e) = pre ++ jsTrim e := by
  have hq : trimChars e.data ≠ [] := by
    intro h
    apply he
    rw [String.ext_iff]
    exact h
  rw [String.ext_iff]
  show trimChars (pre.data ++ trimChars e.data) = pre.data ++ trimChars e.data
  rw [hpre]
  exact trimChars_append_trimmed a e.data c hc hq

theorem jsOr_eq_firstNonEmpty (a b c : String) :
    jsOr a (jsOr b c) = firstNonEmpty [a, b, c] := by
  simp only [jsOr, firstNonEmpty, length_pos_iff_ne_empty]
  by_cases ha : a = "" <;> by_cases hb : b = "" <;> by_cases hc : c = "" <;> simp [ha, hb, hc]

theorem formatResult_case_timeout (code : Option Int) (stdout pt pe : String) :
    formatResult ⟨code, stdout, "boom", true⟩ pt pe = "error: Amp timed out\nboom" := by
  have h : jsTrim "boom" = "boom" := by decide
  have l : "boom".length > 0 := by decide
  simp only [formatResult, if_true, h, jsOr, l]
  decide

theorem formatResult_case_decoded_error (stdout stderr pt : String) :
    formatResult ⟨some 0, stdout, stderr, false⟩ pt "bad input" = "error: bad input" := by
  have h : jsTrim "bad input" = "bad input" := by decide
  have l : "bad input".length > 0 := by decide
  simp only [formatResult, h, l, if_true, Bool.false_eq_true, if_false]
  decide

theorem formatResult_case_hello (stdout : String) :
    formatResult ⟨some 0, stdout, "", false⟩ "hello" "" = "hello" := by
  have h : jsTrim "hello" = "hello" := by decide
  have h0 : jsTrim "" = "" := by decide
  have l : "hello".length > 0 := by decide
  have l0 : ¬ ("".length > 0) := by decide
  simp only [formatResult, h, h0, l, l0, if_true, Bool.false_eq_true, if_false]

theorem formatResult_case_exit_code (stdout pt : String) :
    formatResult ⟨some 1, stdout, "trace", false⟩ pt "" =
      "error: Amp exited with code 1\ntrace" := by
  have h : jsTrim "trace" = "trace" := by decide
  have h0 : jsTrim "" = "" := by decide
  have l : "trace".length > 0 := by decide
  have l0 : ¬ ("".length > 0) := by decide
  have c : ¬ (some (1 : Int) = some 0) := by decide
  simp only [formatResult, h, h0, jsOr, l, l0, c, if_true, Bool.false_eq_true, if_false]
  decide

theorem formatResult_case_no_output (stdout : String) :
    formatResult ⟨some 0, stdout, "", false⟩ "" "" = "ok: Amp completed with no output" := by
  have h0 : jsTrim "" = "" := by decide
  have l0 : ¬ ("".length > 0) := by decide
  simp only [formatResult, h0, l0, if_true, Bool.false_eq_true, if_false]

/-- Claim C1: `formatResult` applies exactly one of four branches, in this order:
timed out; decoded error text non-empty; exit code 0; any other exit code. Each branch
yields the string the contract names, and the five sample cases of the specification
evaluate to the stated strings (fields a case does not mention are arbitrary where the
precedence ignores them, and `timedOut = false`, no decoded error, otherwise). -/
theorem formatResult_precedence (result : ProcResult) (parsedText parsedError : String) :
    (result.timedOut = true →
      formatResult result parsedText parsedError =
        jsTrim ("error: Amp timed out\n" ++
          firstNonEmpty [jsTrim result.stderr, jsTrim result.stdout, jsTrim parsedText])) ∧
    (result.timedOut = false → jsTrim parsedError ≠ "" →
      formatResult result parsedText parsedError = "error: " ++ jsTrim parsedError) ∧
    (result.timedOut = false → jsTrim parsedError = "" → result.code = some 0 →
      formatResult result parsedText parsedError =
        if jsTrim parsedText ≠ "" then jsTrim parsedText
        else if jsTrim result.stderr ≠ "" then jsTrim result.stderr
        else "ok: Amp completed with no output") ∧
    (result.timedOut = false → jsTrim parsedError = "" → result.code ≠ some 0 →
      formatResult result parsedText parsedError =
        jsTrim ("error: Amp exited with code " ++ codeText result.code ++ "\n" ++
          firstNonEmpty [jsTrim result.stderr, jsTrim result.stdout, jsTrim parsedText])) ∧
    (formatResult ⟨result.code, result.stdout, "boom", true⟩ parsedText parsedError =
        "error: Amp timed out\nboom") ∧
    (formatResult ⟨some 0, result.stdout, result.stderr, false⟩ parsedText "bad input" =
        "error: bad input") ∧
    (formatResult ⟨some 0, result.stdout, "", false⟩ "hello" "" = "hello") ∧
    (formatResult ⟨some 1, result.stdout, "trace", false⟩ parsedText "" =
        "error: Amp exited with code 1\ntrace") ∧
    (formatResult ⟨some 0, result.stdout, "", false⟩ "" "" =
        "ok: Amp completed with no output") := by
  refine ⟨?_, ?_, ?_, ?_, formatResult_case_timeout _ _ _ _,
    formatResult_case_decoded_error _ _ _, formatResult_case_hello _,
    formatResult_case_exit_code _ _, formatResult_case_no_output _⟩
  · intro ht
    simp only [formatResult, ht, if_true, jsOr_eq_firstNonEmpty]
  · intro ht he
    have hlen : (jsTrim parsedError).length > 0 := (length_pos_iff_ne_empty _).2 he
    simp only [formatResult, ht, hlen, if_true]
    exact jsTrim_prefixed "error: " parsedError 'e' "rror: ".data rfl (by decide) he
  · intro ht he hc
    simp only [formatResult, ht, he, hc, length_pos_iff_ne_empty]
    simp
  · intro ht he hc
    simp only [formatResult, ht, he, hc, jsOr_eq_firstNonEmpty]
    simp

theorem formatResult_precedence_witness :
    formatResult ⟨none, " half ", "", true⟩ "" "" =
        jsTrim ("error: Amp timed out\n" ++
          firstNonEmpty [jsTrim "", jsTrim " half ", jsTrim ""]) ∧
    formatResult ⟨some 0, "", "", false⟩ "fine" " bad input " =
        "error: " ++ jsTrim " bad input " ∧
    formatResult ⟨some 0, "", " warn ", false⟩ "" "" =
        (if jsTrim "" ≠ "" then jsTrim ""
          else if jsTrim " warn " ≠ "" then jsTrim " warn "
          else "ok: Amp completed with no output") ∧
    formatResult ⟨some 2, " out ", "", false⟩ " text " "" =
        jsTrim ("error: Amp exited with code " ++ codeText (some 2) ++ "\n" ++
          firstNonEmpty [jsTrim "", jsTrim " out ", jsTrim " text "]) :=
  ⟨(formatResult_precedence ⟨none, " half ", "", true⟩ "" "").1 rfl,
    (formatResult_precedence ⟨some 0, "", "", false⟩ "fine" " bad input ").2.1
      rfl (by decide),
    (formatResult_precedence ⟨some 0, "", " warn ", false⟩ "" "").2.2.1
      rfl (by decide) rfl,
    (formatResult_precedence ⟨some 2, " out ", "", false⟩ " text " "").2.2.2.1
      rfl (by decide) (by decide)⟩

/-! ### The decoder loop -/

theorem scanValue_eq (v : Json) (acc : Scan) :
    scanValue v acc =
      match assistantStep v (sessionStep v acc) with
      | .error e => .error e
      | .ok a => .ok (resultStep v a) := by
  cases v <;>
    simp [scanValue, Json.truthy, Json.typeofObject, assistantStep, sessionStep, resultStep,
      isAssistant, isResult, Json.field, strictEqStr, truthyOpt]

theorem assistantStep_wellShaped (v : Json) (acc : Scan) (h : wellShaped v = true) :
    assistantStep v acc = .ok (assistantPure v acc) := by
  unfold wellShaped at h
  unfold assistantStep assistantPure assistantParts
  by_cases ha : isAssistant v = true
  · simp only [ha, if_true]
    simp only [ha, Bool.not_true, Bool.false_or] at h
    cases hc : contentItems v with
    | none => simp [hc] at h
    | some items =>
      simp only [Option.getD_some]
      split_ifs <;> rfl
  · simp [ha]

theorem assistantStep_not_wellShaped (v : Json) (acc : Scan) (h : wellShaped v = false) :
    assistantStep v acc = .error "TypeError: content.filter is not a function" := by
  unfold wellShaped at h
  unfold assistantStep
  by_cases ha : isAssistant v = true
  · simp only [ha, Bool.not_true, Bool.false_or] at h
    cases hc : contentItems v with
    | none => simp [ha]
    | some items => simp [hc] at h
  · simp [ha] at h

theorem scanValue_wellShaped (v : Json) (acc : Scan) (h : wellShaped v = true) :
    scanValue v acc = .ok (scanPure v acc) := by
  rw [scanValue_eq, assistantStep_wellShaped v _ h]
  rfl

theorem scanLine_ok (jsonParse : String → Option Json) (acc : Scan) (line : String)
    (h : ∀ v, jsonParse line = some v → wellShaped v = true) :
    scanLine jsonParse acc line = .ok (linePure jsonParse acc line) := by
  unfold scanLine linePure
  cases hp : jsonParse line with
  | none => rfl
  | some v => exact scanValue_wellShaped v acc (h v hp)

theorem scanLines_ok (jsonParse : String → Option Json) (lines : List String) :
    ∀ acc : Scan, (∀ l ∈ lines, ∀ v, jsonParse l = some v → wellShaped v = true) →
      scanLines jsonParse acc lines = .ok (lines.foldl (linePure jsonParse) acc) := by
  induction lines with
  | nil => intro acc _; rfl
  | cons l rest ih =>
    intro acc h
    simp only [scanLines, List.foldl_cons]
    rw [scanLine_ok jsonParse acc l (h l (List.mem_cons_self _ _))]
    exact ih _ (fun l' hl' => h l' (List.mem_cons_of_mem _ hl'))

theorem scanLines_append (jsonParse : String → Option Json) (a b : List String) :
    ∀ acc : Scan, scanLines jsonParse acc (a ++ b) =
      match scanLines jsonParse acc a with
      | .error e => .error e
      | .ok acc1 => scanLines jsonParse acc1 b := by
  induction a with
  | nil => intro acc; rfl
  | cons l rest ih =>
    intro acc
    simp only [List.cons_append, scanLines]
    cases scanLine jsonParse acc l with
    | error e => rfl
    | ok acc1 => exact ih acc1

theorem scanLines_unparsable (jsonParse : String → Option Json) (junk : List String) :
    ∀ acc : Scan, (∀ l ∈ junk, jsonParse l = none) →
      scanLines jsonParse acc junk = .ok acc := by
  induction junk with
  | nil => intro acc _; rfl
  | cons l rest ih =>
    intro acc h
    simp only [scanLines, scanLine, h l (List.mem_cons_self _ _)]
    exact ih acc (fun l' hl' => h l' (List.mem_cons_of_mem _ hl'))

theorem resultStep_sessionId (v : Json) (a : Scan) :
    (resultStep v a).sessionId = a.sessionId := by
  unfold resultStep
  split_ifs <;> (try split) <;> (try split) <;> rfl

theorem resultStep_lastAssistantText (v : Json) (a : Scan) :
    (resultStep v a).lastAssistantText = a.lastAssistantText := by
  unfold resultStep
  split_ifs <;> (try split) <;> (try split) <;> rfl

theorem resultStep_resultText (v : Json) (a : Scan) :
    (resultStep v a).resultText =
      match resultPayload v with
      | some r => jsTrim r
      | none => a.resultText := by
  unfold resultStep resultPayload
  by_cases hr : isResult v = true
  · simp only [hr, if_true]
    split_ifs <;> (split <;> (try split) <;> simp_all)
  · simp [hr]

theorem assistantPure_sessionId (v : Json) (a : Scan) :
    (assistantPure v a).sessionId = a.sessionId := by
  unfold assistantPure
  split_ifs <;> rfl

theorem assistantPure_resultText (v : Json) (a : Scan) :
    (assistantPure v a).resultText = a.resultText := by
  unfold assistantPure
  split_ifs <;> rfl

theorem assistantPure_lastAssistantText (v : Json) (a : Scan) :
    (assistantPure v a).lastAssistantText =
      if assistantParts v = [] then a.lastAssistantText
      else jsTrim ("\n".intercalate (assistantParts v)) := by
  unfold assistantPure
  by_cases h : assistantParts v = []
  · simp [h]
  · have : (assistantParts v).length > 0 := List.length_pos.2 h
    simp [h, this]

theorem sessionStep_sessionId (v : Json) (a : Scan) :
    (sessionStep v a).sessionId =
      match a.sessionId with
      | some t => some t
      | none => sessionOf v := by
  unfold sessionStep sessionOf
  cases hs : a.sessionId with
  | none => by_cases ht : truthyOpt (v.field "session_id") = true <;> simp [ht, hs]
  | some t => simp [hs]

theorem sessionStep_resultText (v : Json) (a : Scan) :
    (sessionStep v a).resultText = a.resultText := by
  unfold sessionStep
  split_ifs <;> rfl

theorem sessionStep_lastAssistantText (v : Json) (a : Scan) :
    (sessionStep v a).lastAssistantText = a.lastAssistantText := by
  unfold sessionStep
  split_ifs <;> rfl

theorem linePure_sessionId (jsonParse : String → Option Json) (acc : Scan) (l : String) :
    (linePure jsonParse acc l).sessionId =
      match acc.sessionId with
      | some t => some t
      | none => (jsonParse l).bind sessionOf := by
  unfold linePure
  cases hp : jsonParse l with
  | none => cases h : acc.sessionId <;> simp
  | some v =>
    simp only [scanPure, resultStep_sessionId, assistantPure_sessionId, sessionStep_sessionId,
      Option.some_bind]

theorem linePure_resultText (jsonParse : String → Option Json) (acc : Scan) (l : String) :
    (linePure jsonParse acc l).resultText =
      match (jsonParse l).bind resultPayload with
      | some r => jsTrim r
      | none => acc.resultText := by
  unfold linePure
  cases hp : jsonParse l with
  | none => simp
  | some v =>
    simp only [scanPure, resultStep_resultText, assistantPure_resultText,
      sessionStep_resultText, Option.some_bind]

theorem linePure_lastAssistantText (jsonParse : String → Option Json) (acc : Scan)
    (l : String) :
    (linePure jsonParse acc l).lastAssistantText =
      match jsonParse l with
      | some v =>
        if assistantParts v = [] then acc.lastAssistantText
        else jsTrim ("\n".intercalate (assistantParts v))
      | none => acc.lastAssistantText := by
  unfold linePure
  cases hp : jsonParse l with
  | none => simp
  | some v =>
    simp only [scanPure, resultStep_lastAssistantText, assistantPure_lastAssistantText,
      sessionStep_lastAssistantText]

theorem foldl_sessionId_some (jsonParse : String → Option Json) (lines : List String)
    (t : Json) :
    ∀ acc : Scan, acc.sessionId = some t →
      (lines.foldl (linePure jsonParse) acc).sessionId = some t := by
  induction lines with
  | nil => intro acc h; exact h
  | cons l rest ih =>
    intro acc h
    rw [List.foldl_cons]
    apply ih
    rw [linePure_sessionId, h]

theorem foldl_sessionId_none (jsonParse : String → Option Json) (lines : List String) :
    ∀ acc : Scan, acc.sessionId = none →
      (∀ l ∈ lines, ∀ v, jsonParse l = some v → sessionOf v = none) →
      (lines.foldl (linePure jsonParse) acc).sessionId = none := by
  induction lines with
  | nil => intro acc h _; exact h
  | cons l rest ih =>
    intro acc h hl
    rw [List.foldl_cons]
    apply ih
    · rw [linePure_sessionId, h]
      cases hp : jsonParse l with
      | none => rfl
      | some v => exact hl l (List.mem_cons_self _ _) v hp
    · exact fun l' hl' => hl l' (List.mem_cons_of_mem _ hl')

theorem finish_sessionId (acc : Scan) : (finish acc).sessionId = acc.sessionId := rfl

theorem parseStreamResult_ok (jsonParse : String → Option Json) (stdout : String)
    (hok : ∀ l ∈ streamLines stdout, ∀ v, jsonParse l = some v → wellShaped v = true) :
    parseStreamResult jsonParse stdout =
      .ok (finish ((streamLines stdout).foldl (linePure jsonParse) Scan.init)) := by
  unfold parseStreamResult
  rw [scanLines_ok jsonParse _ _ hok]

theorem scanLine_some (jsonParse : String → Option Json) (acc : Scan) (l : String)
    (v : Json) (hp : jsonParse l = some v) :
    scanLine jsonParse acc l = scanValue v acc := by
  unfold scanLine
  rw [hp]

theorem scanLine_none (jsonParse : String → Option Json) (acc : Scan) (l : String)
    (hp : jsonParse l = none) :
    scanLine jsonParse acc l = .ok acc := by
  unfold scanLine
  rw [hp]

theorem scanValue_not_wellShaped (v : Json) (acc : Scan) (h : wellShaped v = false) :
    scanValue v acc = .error "TypeError: content.filter is not a function" := by
  rw [scanValue_eq, assistantStep_not_wellShaped v _ h]

theorem scanLine_error (jsonParse : String → Option Json) (acc : Scan) (l e : String)
    (hs : scanLine jsonParse acc l = .error e) :
    e = "TypeError: content.filter is not a function" := by
  cases hp : jsonParse l with
  | none =>
    rw [scanLine_none jsonParse acc l hp] at hs
    cases hs
  | some v =>
    rw [scanLine_some jsonParse acc l v hp] at hs
    by_cases hw : wellShaped v = true
    · rw [scanValue_wellShaped v acc hw] at hs
      cases hs
    · rw [scanValue_not_wellShaped v acc (by simpa using hw)] at hs
      cases hs
      rfl

theorem scanLines_throws (jsonParse : String → Option Json) (lines : List String) :
    ∀ acc : Scan, (∃ l ∈ lines, ∃ v, jsonParse l = some v ∧ wellShaped v = false) →
      scanLines jsonParse acc lines = .error "TypeError: content.filter is not a function" := by
  induction lines with
  | nil => intro acc h; obtain ⟨l, hl, _⟩ := h; cases hl
  | cons l rest ih =>
    intro acc h
    simp only [scanLines]
    cases hs : scanLine jsonParse acc l with
    | error e => rw [scanLine_error jsonParse acc l e hs]
    | ok acc1 =>
      apply ih acc1
      obtain ⟨l1, hl1, v, hv, hw⟩ := h
      rcases List.mem_cons.1 hl1 with rfl | hmem
      · rw [scanLine_some jsonParse acc l1 v hv, scanValue_not_wellShaped v acc hw] at hs
        cases hs
      · exact ⟨l1, hmem, v, hv, hw⟩

theorem parseStreamResult_throws (jsonParse : String → Option Json) (stdout : String)
    (h : ∃ l ∈ streamLines stdout, ∃ v, jsonParse l = some v ∧ wellShaped v = false) :
    parseStreamResult jsonParse stdout =
      .error "TypeError: content.filter is not a function" := by
  unfold parseStreamResult
  rw [scanLines_throws jsonParse _ Scan.init h]

/-- First write wins: when the first line of the stream that carries a session
identifier carries `t1` and a later line carries a different identifier `t2`, the
decoder returns `t1` as `sessionId`, provided it returns at all, that is, no line is an
assistant event whose `message.content` is truthy and not an array. -/
theorem parseStreamResult_session_first_wins (jsonParse : String → Option Json)
    (stdout : String) (before mid after : List String) (l1 l2 : String) (v1 v2 t1 t2 : Json)
    (hlines : streamLines stdout = before ++ l1 :: (mid ++ l2 :: after))
    (hbefore : ∀ l ∈ before, ∀ v, jsonParse l = some v → sessionOf v = none)
    (hp1 : jsonParse l1 = some v1) (hs1 : sessionOf v1 = some t1)
    (_hp2 : jsonParse l2 = some v2) (_hs2 : sessionOf v2 = some t2) (_hne : t2 ≠ t1)
    (hok : ∀ l ∈ streamLines stdout, ∀ v, jsonParse l = some v → wellShaped v = true) :
    ∃ r, parseStreamResult jsonParse stdout = .ok r ∧ r.sessionId = some t1 := by
  refine ⟨_, parseStreamResult_ok jsonParse stdout hok, ?_⟩
  rw [finish_sessionId, hlines, List.foldl_append, List.foldl_cons]
  apply foldl_sessionId_some
  rw [linePure_sessionId, foldl_sessionId_none jsonParse before Scan.init rfl hbefore, hp1]
  exact hs1

theorem lookup_forall {α : Type} (P : α → Prop) (table : List (String × α)) (k : String)
    (v : α) (hall : ∀ p ∈ table, P p.2) (h : table.lookup k = some v) : P v := by
  induction table with
  | nil => simp at h
  | cons p rest ih =>
    obtain ⟨k1, v1⟩ := p
    rw [List.lookup_cons] at h
    by_cases hk : (k == k1) = true
    · rw [hk] at h
      simp only [Option.some.injEq] at h
      rw [← h]
      exact hall (k1, v1) (List.mem_cons_self _ _)
    · simp only [Bool.not_eq_true] at hk
      rw [hk] at h
      exact ih (fun p hp => hall p (List.mem_cons_of_mem _ hp)) h

theorem sampleParse_wellShaped (l : String) (v : Json) (h : sampleParse l = some v) :
    wellShaped v = true := by
  refine lookup_forall (fun v => wellShaped v = true) sampleTable l v ?_ h
  intro p hp
  simp only [sampleTable, List.mem_cons, List.mem_singleton, List.not_mem_nil, or_false] at hp
  rcases hp with rfl | rfl | rfl | rfl | rfl | rfl <;> rfl

theorem parseStreamResult_session_first_wins_witness :
    ∃ r, parseStreamResult sampleParse (lineT1 ++ "\n" ++ lineT2 ++ "\n") = .ok r ∧
      r.sessionId = some (Json.str "T1") :=
  parseStreamResult_session_first_wins sampleParse (lineT1 ++ "\n" ++ lineT2 ++ "\n")
    [] [] [] lineT1 lineT2 _ _ (Json.str "T1") (Json.str "T2")
    (by decide) (by simp) (by rfl) (by rfl) (by rfl) (by rfl) (by simp)
    (fun l _ v hv => sampleParse_wellShaped l v hv)

/-- Claim C2 fails on the code: in the stream below the first line carries the session
identifier `T1` and the second carries `T2`, yet the decoder returns no session
identifier at all. The third line is an assistant event whose `message.content` is a
string; `content.filter` is not a function and the `TypeError` leaves the decoder. -/
theorem parseStreamResult_session_stream_throws :
    streamLines (lineT1 ++ "\n" ++ lineT2 ++ "\n" ++ lineText ++ "\n") =
      [lineT1, lineT2, lineText] ∧
    faultyParse lineT1 = some (Json.obj [("session_id", Json.str "T1")]) ∧
    faultyParse lineT2 = some (Json.obj [("session_id", Json.str "T2")]) ∧
    faultyParse lineText = some valueText ∧
    parseStreamResult faultyParse (lineT1 ++ "\n" ++ lineT2 ++ "\n" ++ lineText ++ "\n") =
      .error "TypeError: content.filter is not a function" := by
  refine ⟨by decide, by rfl, by rfl, by rfl, by rfl⟩

/-! ### Result text and the assistant fallback -/

theorem foldl_resultText_unchanged (jsonParse : String → Option Json) (lines : List String) :
    ∀ acc : Scan, (∀ l ∈ lines, ∀ v, jsonParse l = some v → resultPayload v = none) →
      (lines.foldl (linePure jsonParse) acc).resultText = acc.resultText := by
  induction lines with
  | nil => intro acc _; rfl
  | cons l rest ih =>
    intro acc h
    rw [List.foldl_cons, ih _ (fun l' hl' => h l' (List.mem_cons_of_mem _ hl')),
      linePure_resultText]
    cases hp : jsonParse l with
    | none => rfl
    | some v => simp [h l (List.mem_cons_self _ _) v hp]

theorem foldl_resultText_last (jsonParse : String → Option Json)
    (before after : List String) (rl : String) (vr : Json) (r : String) (acc : Scan)
    (hpr : jsonParse rl = some vr) (hr : resultPayload vr = some r)
    (hafter : ∀ l ∈ after, ∀ v, jsonParse l = some v → resultPayload v = none) :
    ((before ++ rl :: after).foldl (linePure jsonParse) acc).resultText = jsTrim r := by
  rw [List.foldl_append, List.foldl_cons, foldl_resultText_unchanged jsonParse after _ hafter,
    linePure_resultText, hpr]
  simp [hr]

theorem foldl_lastAssistantText_unchanged (jsonParse : String → Option Json)
    (lines : List String) :
    ∀ acc : Scan, (∀ l ∈ lines, ∀ v, jsonParse l = some v → assistantParts v = []) →
      (lines.foldl (linePure jsonParse) acc).lastAssistantText = acc.lastAssistantText := by
  induction lines with
  | nil => intro acc _; rfl
  | cons l rest ih =>
    intro acc h
    rw [List.foldl_cons, ih _ (fun l' hl' => h l' (List.mem_cons_of_mem _ hl')),
      linePure_lastAssistantText]
    cases hp : jsonParse l with
    | none => rfl
    | some v => simp [h l (List.mem_cons_self _ _) v hp]

theorem foldl_lastAssistantText_last (jsonParse : String → Option Json)
    (before after : List String) (al : String) (va : Json) (acc : Scan)
    (hpa : jsonParse al = some va) (hparts : assistantParts va ≠ [])
    (hafter : ∀ l ∈ after, ∀ v, jsonParse l = some v → assistantParts v = []) :
    ((before ++ al :: after).foldl (linePure jsonParse) acc).lastAssistantText =
      jsTrim ("\n".intercalate (assistantParts va)) := by
  rw [List.foldl_append, List.foldl_cons,
    foldl_lastAssistantText_unchanged jsonParse after _ hafter, linePure_lastAssistantText, hpa]
  simp [hparts]

theorem resultPayload_of_not_isResult (v : Json) (h : isResult v = false) :
    resultPayload v = none := by
  simp [resultPayload, h]

theorem finish_resultText (acc : Scan) :
    (finish acc).resultText =
      if acc.resultText = "" then acc.lastAssistantText else acc.resultText := by
  unfold finish
  by_cases h1 : acc.resultText = "" <;> by_cases h2 : acc.lastAssistantText = "" <;>
    simp [h1, h2]

/-- Claim C4, amended: in a stream with no result event and no assistant event whose
`message.content` is truthy and not an array, the result text is the joined (with
newlines) and trimmed text parts of the last assistant event that has at least one text
part; an assistant event without text parts leaves the earlier value in place. -/
theorem parseStreamResult_assistant_fallback (jsonParse : String → Option Json)
    (stdout : String) (before after : List String) (al : String) (va : Json)
    (hlines : streamLines stdout = before ++ al :: after)
    (hpa : jsonParse al = some va) (hparts : assistantParts va ≠ [])
    (hafter : ∀ l ∈ after, ∀ v, jsonParse l = some v → assistantParts v = [])
    (hnores : ∀ l ∈ streamLines stdout, ∀ v, jsonParse l = some v → isResult v = false)
    (hok : ∀ l ∈ streamLines stdout, ∀ v, jsonParse l = some v → wellShaped v = true) :
    ∃ r, parseStreamResult jsonParse stdout = .ok r ∧
      r.resultText = jsTrim ("\n".intercalate (assistantParts va)) := by
  refine ⟨_, parseStreamResult_ok jsonParse stdout hok, ?_⟩
  have hres : ((streamLines stdout).foldl (linePure jsonParse) Scan.init).resultText = "" :=
    foldl_resultText_unchanged jsonParse _ Scan.init
      (fun l hl v hv => resultPayload_of_not_isResult v (hnores l hl v hv))
  rw [finish_resultText, hres, if_pos rfl, hlines]
  exact foldl_lastAssistantText_last jsonParse before after al va _ hpa hparts hafter

theorem parseStreamResult_assistant_fallback_witness :
    ∃ r, parseStreamResult sampleParse (lineT1 ++ "\n" ++ lineHi ++ "\r\n" ++ lineTool) = .ok r ∧
      r.resultText = jsTrim ("\n".intercalate (assistantParts valueHi)) :=
  parseStreamResult_assistant_fallback sampleParse
    (lineT1 ++ "\n" ++ lineHi ++ "\r\n" ++ lineTool) [lineT1] [lineTool] lineHi valueHi
    (by decide) (by rfl) (by decide)
    (by
      intro l hl v hv
      rw [List.mem_singleton] at hl
      subst hl
      cases hv
      rfl)
    (by
      intro l hl v hv
      rw [show streamLines (lineT1 ++ "\n" ++ lineHi ++ "\r\n" ++ lineTool) =
        [lineT1, lineHi, lineTool] by decide] at hl
      simp only [List.mem_cons, List.mem_singleton, List.not_mem_nil, or_false] at hl
      rcases hl with rfl | rfl | rfl <;> cases hv <;> rfl)
    (fun l _ v hv => sampleParse_wellShaped l v hv)

/-- Claim C4 as stated fails: the stream below has no result event and an assistant event
with the text `hi`; its last assistant event carries a tool call and no text part, so its
joined and trimmed text is empty, yet the decoder returns `hi`. -/
theorem parseStreamResult_last_assistant_counterexample :
    streamLines (lineHi ++ "\n" ++ lineTool ++ "\n") = [lineHi, lineTool] ∧
    sampleParse lineHi = some valueHi ∧ sampleParse lineTool = some valueTool ∧
    assistantParts valueHi = ["hi"] ∧ isResult valueHi = false ∧ isResult valueTool = false ∧
    ¬ (∀ (before after : List String) (al : String) (va : Json),
        streamLines (lineHi ++ "\n" ++ lineTool ++ "\n") = before ++ al :: after →
        sampleParse al = some va → isAssistant va = true →
        (∀ l ∈ after, ∀ v, sampleParse l = some v → isAssistant v = false) →
        ∃ r, parseStreamResult sampleParse (lineHi ++ "\n" ++ lineTool ++ "\n") = .ok r ∧
          r.resultText = jsTrim ("\n".intercalate (assistantParts va))) := by
  refine ⟨by decide, rfl, rfl, rfl, rfl, rfl, ?_⟩
  intro h
  obtain ⟨r, hr, hrt⟩ := h [lineHi] [] lineTool valueTool (by decide) (by rfl) (by rfl) (by simp)
  have hval : parseStreamResult sampleParse (lineHi ++ "\n" ++ lineTool ++ "\n") =
      .ok ⟨none, "hi", ""⟩ := by rfl
  rw [hval] at hr
  cases hr
  revert hrt
  decide

/-- Claim C5, amended: when the stream has a result event with a string payload, and no
assistant event whose `message.content` is truthy and not an array, the result text is
the trimmed payload of the last such result event provided that trimmed payload is not
empty, whatever else the assistant events contain. When it is empty the fallback applies
as if no result text had been set: the result text is the joined and trimmed text of
the last assistant event that has text parts, and empty when there is none. -/
theorem parseStreamResult_result_payload (jsonParse : String → Option Json)
    (stdout : String) (before after : List String) (rl : String) (vr : Json) (r : String)
    (hlines : streamLines stdout = before ++ rl :: after)
    (hpr : jsonParse rl = some vr) (hr : resultPayload vr = some r)
    (hafter : ∀ l ∈ after, ∀ v, jsonParse l = some v → resultPayload v = none)
    (hok : ∀ l ∈ streamLines stdout, ∀ v, jsonParse l = some v → wellShaped v = true) :
    ∃ d, parseStreamResult jsonParse stdout = .ok d ∧
      (jsTrim r ≠ "" → d.resultText = jsTrim r) ∧
      (jsTrim r = "" →
        ∀ (before2 after2 : List String) (al : String) (va : Json),
          streamLines stdout = before2 ++ al :: after2 →
          jsonParse al = some va → assistantParts va ≠ [] →
          (∀ l ∈ after2, ∀ v, jsonParse l = some v → assistantParts v = []) →
          d.resultText = jsTrim ("\n".intercalate (assistantParts va))) ∧
      (jsTrim r = "" →
        (∀ l ∈ streamLines stdout, ∀ v, jsonParse l = some v → assistantParts v = []) →
        d.resultText = "") := by
  refine ⟨_, parseStreamResult_ok jsonParse stdout hok, ?_, ?_, ?_⟩
  · intro hne
    rw [finish_resultText, hlines,
      foldl_resultText_last jsonParse before after rl vr r _ hpr hr hafter, if_neg hne]
  · intro he before2 after2 al va hl2 hpa hparts hafter2
    have h1 : ((streamLines stdout).foldl (linePure jsonParse) Scan.init).resultText = "" := by
      rw [hlines, foldl_resultText_last jsonParse before after rl vr r _ hpr hr hafter, he]
    rw [finish_resultText, h1, if_pos rfl, hl2]
    exact foldl_lastAssistantText_last jsonParse before2 after2 al va _ hpa hparts hafter2
  · intro he hnone
    have h1 : ((streamLines stdout).foldl (linePure jsonParse) Scan.init).resultText = "" := by
      rw [hlines, foldl_resultText_last jsonParse before after rl vr r _ hpr hr hafter, he]
    rw [finish_resultText, h1, if_pos rfl]
    exact foldl_lastAssistantText_unchanged jsonParse _ Scan.init hnone

theorem parseStreamResult_result_payload_witness :
    ∃ d, parseStreamResult sampleParse (lineDone ++ "\n" ++ lineHi ++ "\n") = .ok d ∧
      d.resultText = jsTrim " done " := by
  obtain ⟨d, hd, h1, _, _⟩ :=
    parseStreamResult_result_payload sampleParse (lineDone ++ "\n" ++ lineHi ++ "\n")
      [] [lineHi] lineDone valueDone " done " (by decide) (by rfl) (by rfl)
      (by
        intro l hl v hv
        rw [List.mem_singleton] at hl
        subst hl
        cases hv
        rfl)
      (fun l _ v hv => sampleParse_wellShaped l v hv)
  exact ⟨d, hd, h1 (by decide)⟩

/-- Claim C5 as stated fails: the last (and only) result event of the stream below has
the empty payload, yet the decoder returns the text `hi` of the assistant event. -/
theorem parseStreamResult_result_payload_counterexample :
    streamLines (lineHi ++ "\n" ++ lineEmptyResult ++ "\n") = [lineHi, lineEmptyResult] ∧
    sampleParse lineEmptyResult = some valueEmptyResult ∧
    resultPayload valueEmptyResult = some "" ∧
    ¬ (∀ (before after : List String) (rl : String) (vr : Json) (r : String),
        streamLines (lineHi ++ "\n" ++ lineEmptyResult ++ "\n") = before ++ rl :: after →
        sampleParse rl = some vr → resultPayload vr = some r →
        (∀ l ∈ after, ∀ v, sampleParse l = some v → resultPayload v = none) →
        ∃ d, parseStreamResult sampleParse (lineHi ++ "\n" ++ lineEmptyResult ++ "\n") = .ok d ∧
          d.resultText = jsTrim r) := by
  refine ⟨by decide, rfl, rfl, ?_⟩
  intro h
  obtain ⟨d, hd, hdt⟩ := h [lineHi] [] lineEmptyResult valueEmptyResult "" (by decide)
    (by rfl) (by rfl) (by simp)
  have hval : parseStreamResult sampleParse (lineHi ++ "\n" ++ lineEmptyResult ++ "\n") =
      .ok ⟨none, "hi", ""⟩ := by rfl
  rw [hval] at hd
  cases hd
  revert hdt
  decide

/-! ### Lines of a stream -/

theorem splitLines_cons (c : Char) (rest : List Char) :
    splitLines (c :: rest) = splitStep c rest (splitLines rest) := rfl

theorem splitLines_ne_nil (l : List Char) : splitLines l ≠ [] := by
  cases l with
  | nil => simp [splitLines]
  | cons c rest =>
    rw [splitLines_cons]
    cases h : splitLines rest with
    | nil => simp [splitStep]
    | cons cur more =>
      simp only [splitStep]
      split_ifs <;> simp

theorem splitStep_ne_nil (c : Char) (rest : List Char) (d : List (List Char)) :
    splitStep c rest d ≠ [] := by
  cases d with
  | nil => simp [splitStep]
  | cons cur more =>
    simp only [splitStep]
    split_ifs <;> simp

theorem splitStep_append (c : Char) (r1 r2 : List Char) (d s : List (List Char))
    (hd : d ≠ []) (hr : r1.head? = r2.head?) :
    splitStep c r1 (d ++ s) = splitStep c r2 d ++ s := by
  cases d with
  | nil => exact absurd rfl hd
  | cons cur more =>
    simp only [List.cons_append, splitStep, hr]
    split_ifs <;> simp

theorem splitLines_newline_last (a : List Char) :
    ∃ d, d ≠ [] ∧ splitLines (a ++ ['\n']) = d ++ [[]] := by
  induction a with
  | nil => exact ⟨[[]], by simp, by decide⟩
  | cons c a ih =>
    obtain ⟨d, hd, he⟩ := ih
    refine ⟨splitStep c (a ++ ['\n']) d, splitStep_ne_nil _ _ _, ?_⟩
    rw [List.cons_append, splitLines_cons, he]
    exact splitStep_append c _ _ d [[]] hd rfl

theorem splitLines_append_newline (a b : List Char) :
    splitLines (a ++ '\n' :: b) = (splitLines (a ++ ['\n'])).dropLast ++ splitLines b := by
  induction a with
  | nil =>
    simp only [List.nil_append, splitLines_cons]
    have h := splitLines_ne_nil b
    cases hb : splitLines b with
    | nil => exact absurd hb h
    | cons cur more => simp [splitStep, splitLines]
  | cons c a ih =>
    obtain ⟨d, hd, he⟩ := splitLines_newline_last a
    rw [List.cons_append, List.cons_append, splitLines_cons, splitLines_cons, ih, he,
      List.dropLast_concat]
    rw [splitStep_append c (a ++ '\n' :: b) (a ++ ['\n']) d (splitLines b) hd
      (by cases a <;> simp)]
    rw [splitStep_append c (a ++ ['\n']) (a ++ ['\n']) d [[]] hd rfl, List.dropLast_concat]

theorem splitLines_snoc_newline (a : List Char) (h : a.getLast? ≠ some '\r') :
    splitLines (a ++ ['\n']) = splitLines a ++ [[]] := by
  induction a with
  | nil => decide
  | cons c a ih =>
    cases a with
    | nil =>
      have hc : c ≠ '\r' := by simpa using h
      simp only [List.cons_append, List.nil_append, splitLines_cons, splitLines, splitStep]
      by_cases hn : c = '\n' <;> simp [hn, hc]
    | cons c2 a2 =>
      have h2 : (c2 :: a2).getLast? ≠ some '\r' := by
        simpa [List.getLast?_cons_cons] using h
      rw [List.cons_append, splitLines_cons, ih h2, splitLines_cons c (c2 :: a2)]
      exact splitStep_append c _ _ _ [[]] (splitLines_ne_nil _) rfl

theorem streamLines_def (s : String) :
    streamLines s = ((splitLines s.data).filter (fun l => !l.isEmpty)).map String.mk := rfl

theorem streamLines_append_of_newline (p x : String) :
    streamLines (p ++ "\n" ++ x) = streamLines (p ++ "\n") ++ streamLines x := by
  obtain ⟨d, _, he⟩ := splitLines_newline_last p.data
  have h1 : (p ++ "\n" ++ x).data = p.data ++ '\n' :: x.data := by
    simp [String.data_append]
  have h2 : (p ++ "\n").data = p.data ++ ['\n'] := by
    simp [String.data_append]
  rw [streamLines_def, streamLines_def, streamLines_def, h1, h2, splitLines_append_newline, he]
  simp

theorem streamLines_append (pre x : String) (hpre : pre = "" ∨ ∃ p, pre = p ++ "\n") :
    streamLines (pre ++ x) = streamLines pre ++ streamLines x := by
  rcases hpre with rfl | ⟨p, rfl⟩
  · have h0 : streamLines "" = [] := by decide
    rw [h0, String.empty_append, List.nil_append]
  · exact streamLines_append_of_newline p x

theorem streamLines_snoc_newline (s : String) (h : s.data.getLast? ≠ some '\r') :
    streamLines (s ++ "\n") = streamLines s := by
  have h2 : (s ++ "\n").data = s.data ++ ['\n'] := by
    simp [String.data_append]
  rw [streamLines_def, streamLines_def, h2, splitLines_snoc_newline s.data h]
  simp

theorem scanLines_insert (jsonParse : String → Option Json) (a junk b : List String)
    (acc : Scan) (hj : ∀ l ∈ junk, jsonParse l = none) :
    scanLines jsonParse acc (a ++ junk ++ b) = scanLines jsonParse acc (a ++ b) := by
  rw [List.append_assoc, scanLines_append, scanLines_append jsonParse a b]
  cases scanLines jsonParse acc a with
  | error e => rfl
  | ok acc1 =>
    show scanLines jsonParse acc1 (junk ++ b) = scanLines jsonParse acc1 b
    rw [scanLines_append, scanLines_unparsable jsonParse junk acc1 hj]

/-- An unparsable line changes nothing: inserted at a line boundary of a stream (in
front of a line or after the last newline, or appended after a last line that has no
newline), it leaves the decoder's outcome, result or failure, as it is without it. -/
theorem parseStreamResult_skips_unparsable (jsonParse : String → Option Json)
    (pre bad post : String) :
    ((pre = "" ∨ ∃ p, pre = p ++ "\n") →
      (∀ l ∈ streamLines (bad ++ "\n"), jsonParse l = none) →
      parseStreamResult jsonParse (pre ++ ((bad ++ "\n") ++ post)) =
        parseStreamResult jsonParse (pre ++ post)) ∧
    (pre.data.getLast? ≠ some '\r' →
      (∀ l ∈ streamLines bad, jsonParse l = none) →
      parseStreamResult jsonParse (pre ++ "\n" ++ bad) = parseStreamResult jsonParse pre) := by
  constructor
  · intro hpre hbad
    unfold parseStreamResult
    rw [streamLines_append pre _ hpre, streamLines_append (bad ++ "\n") post (Or.inr ⟨bad, rfl⟩),
      streamLines_append pre post hpre, ← List.append_assoc,
      scanLines_insert jsonParse _ _ _ _ hbad]
  · intro hpre hbad
    unfold parseStreamResult
    rw [streamLines_append_of_newline, streamLines_snoc_newline pre hpre]
    have := scanLines_insert jsonParse (streamLines pre) (streamLines bad) [] Scan.init hbad
    rw [List.append_nil, List.append_nil] at this
    rw [this]

/-- Claim C3 fails on the code: every line of the stream below parses as JSON, the line
`oops` inserted after it does not, and the decoder throws a `TypeError` on the stream,
with the inserted line and without it, because the `message.content` of the assistant
line is a string and `content.filter` is not a function. -/
theorem parseStreamResult_parsed_stream_throws :
    streamLines (lineText ++ "\n" ++ "oops" ++ "\n") = [lineText, "oops"] ∧
    streamLines (lineText ++ "\n") = [lineText] ∧
    faultyParse lineText = some valueText ∧
    faultyParse "oops" = none ∧
    parseStreamResult faultyParse (lineText ++ "\n" ++ "oops" ++ "\n") =
      .error "TypeError: content.filter is not a function" ∧
    parseStreamResult faultyParse (lineText ++ "\n") =
      .error "TypeError: content.filter is not a function" := by
  refine ⟨by decide, by decide, by rfl, by rfl, by rfl, by rfl⟩

/-! ### The request handler -/

theorem trimChars_all_space (l : List Char) (h : ∀ c ∈ l, isJsSpace c = true) :
    trimChars l = [] := by
  have h1 : l.dropWhile isJsSpace = [] := List.dropWhile_eq_nil_iff.2 h
  simp [trimChars, h1]

theorem validPrompt_blank (prompt : Option Json)
    (hblank : ∀ p, prompt = some (Json.str p) → ∀ c ∈ p.data, isJsSpace c = true) :
    validPrompt prompt = none := by
  unfold validPrompt
  split
  · next p =>
    have : (jsTrim p).length = 0 := by
      show (trimChars p.data).length = 0
      rw [trimChars_all_space p.data (hblank p rfl)]
      rfl
    simp [this]
  · rfl

/-- Claim C9: an `amp_run` or `amp_resume` request whose prompt is missing, is not a
string, or consists of white space only (the empty string included) makes the handler
throw `prompt is required and must be a non-empty string` with no action performed:
no key resolution, no read or write of the state file, no child process. -/
theorem handleCall_rejects_blank_prompt (w : World) (file : Option String)
    (request : Request)
    (hname : request.name = "amp_run" ∨ request.name = "amp_resume")
    (hblank : ∀ p, request.arg "prompt" = some (Json.str p) →
      ∀ c ∈ p.data, isJsSpace c = true) :
    handleCall w file request =
      ⟨.error "prompt is required and must be a non-empty string", [], file⟩ := by
  have hn : ¬ (request.name ≠ "amp_run" ∧ request.name ≠ "amp_resume") := by
    rcases hname with h | h <;> simp [h]
  unfold handleCall
  rw [if_neg hn, validPrompt_blank _ hblank]

theorem handleCall_rejects_blank_prompt_witness :
    handleCall ⟨none, none, "/home/u/proj", "2024-01-01T00:00:00.000Z", fun _ => none,
        sampleParse, fun _ => "", true, fun _ => .error "spawn amp ENOENT"⟩ (some "x")
        ⟨"amp_resume", some [("prompt", Json.str " \n\t ")]⟩ =
      ⟨.error "prompt is required and must be a non-empty string", [], some "x"⟩ :=
  handleCall_rejects_blank_prompt _ _ _ (Or.inr rfl) (by
    intro p hp c hc
    have hp2 : Json.str " \n\t " = Json.str p := Option.some.inj hp
    cases hp2
    revert c
    decide)

theorem spawnCalls_append (a b : List Effect) :
    spawnCalls (a ++ b) = spawnCalls a ++ spawnCalls b := by
  induction a with
  | nil => rfl
  | cons e rest ih => cases e <;> simp [spawnCalls, ih]

theorem afterRun_trace (w : World) (file : Option String) (state : StoreState)
    (projectKey : Json) (trace : List Effect) (result : ProcResult) :
    (afterRun w file state projectKey trace result).trace = trace ∨
      ∃ content, (afterRun w file state projectKey trace result).trace =
        trace ++ [Effect.writeState content] := by
  simp only [afterRun]
  repeat' split
  all_goals first | exact Or.inl rfl | exact Or.inr ⟨_, rfl⟩

theorem afterRun_spawnCalls (w : World) (file : Option String) (state : StoreState)
    (projectKey : Json) (trace : List Effect) (result : ProcResult) :
    spawnCalls (afterRun w file state projectKey trace result).trace = spawnCalls trace := by
  rcases afterRun_trace w file state projectKey trace result with h | ⟨c, h⟩
  · rw [h]
  · rw [h, spawnCalls_append]
    simp [spawnCalls]

theorem buildArgs_eq (allowAll mode : Option Json) (dflt effPrompt m : String)
    (hmode : orDefault mode (Json.str dflt) = Json.str m) :
    buildArgs allowAll mode dflt effPrompt = .ok
      ((if jsTrim m ≠ "" then ["-m", jsTrim m] else []) ++
        (if truthyOpt allowAll = true then ["--dangerously-allow-all"] else []) ++
        ["--log-level", "error", "--no-ide", "--no-jetbrains"] ++
        ["-x", effPrompt, "--stream-json"]) := by
  unfold buildArgs
  rw [hmode]
  by_cases h1 : jsTrim m = "" <;> by_cases h2 : truthyOpt allowAll = true <;> simp [h1, h2]

theorem handleCall_spawnCalls (w : World) (file : Option String) (request : Request)
    (prompt effPrompt : String) (args : List String)
    (hname : request.name = "amp_run" ∨ request.name = "amp_resume")
    (hprompt : validPrompt (request.arg "prompt") = some prompt)
    (heff : effectivePrompt request.name (request.arg "thread_id")
      (loadState w.jsonParse file)
      (resolveProjectKey w.realpath (orDefault (request.arg "project_dir") (Json.str w.cwd)))
      prompt = .ok (some effPrompt))
    (hargs : buildArgs (request.arg "dangerously_allow_all") (request.arg "mode")
      (defaultMode w) effPrompt = .ok args) :
    spawnCalls (handleCall w file request).trace =
      [{ command := orDefault (request.arg "amp_bin") (Json.str (defaultBin w))
         args := args
         cwd := orDefault (request.arg "project_dir") (Json.str w.cwd)
         stdin := request.arg "stdin"
         timeoutSec := request.arg "timeout_sec" }] := by
  have hn : ¬ (request.name ≠ "amp_run" ∧ request.name ≠ "amp_resume") := by
    rcases hname with h | h <;> simp [h]
  unfold handleCall
  rw [if_neg hn, hprompt]
  simp only [heff, hargs]
  split
  · simp [spawnCalls]
  · rw [afterRun_spawnCalls]
    simp [spawnCalls]

/-- Claim C8: for an accepted request (valid prompt, a thread reference when resuming,
a mode that is a string when given) the child is spawned once, with the argument list
`-m <mode>` when the trimmed mode (explicit, else default) is not empty, then
`--dangerously-allow-all` when that argument is truthy, then the four fixed flags, then
`-x <effective prompt> --stream-json`. -/
theorem handleCall_argument_list (w : World) (file : Option String) (request : Request)
    (prompt effPrompt m : String)
    (hname : request.name = "amp_run" ∨ request.name = "amp_resume")
    (hprompt : validPrompt (request.arg "prompt") = some prompt)
    (heff : effectivePrompt request.name (request.arg "thread_id")
      (loadState w.jsonParse file)
      (resolveProjectKey w.realpath (orDefault (request.arg "project_dir") (Json.str w.cwd)))
      prompt = .ok (some effPrompt))
    (hmode : orDefault (request.arg "mode") (Json.str (defaultMode w)) = Json.str m) :
    (spawnCalls (handleCall w file request).trace).map SpawnArgs.args =
      [(if jsTrim m ≠ "" then ["-m", jsTrim m] else []) ++
        (if truthyOpt (request.arg "dangerously_allow_all") = true then
          ["--dangerously-allow-all"] else []) ++
        ["--log-level", "error", "--no-ide", "--no-jetbrains"] ++
        ["-x", effPrompt, "--stream-json"]] := by
  rw [handleCall_spawnCalls w file request prompt effPrompt _ hname hprompt heff
    (buildArgs_eq _ _ _ _ m hmode)]
  rfl

theorem handleCall_argument_list_witness :
    (spawnCalls (handleCall sampleWorld none
        ⟨"amp_run", some [("prompt", Json.str "hi"), ("mode", Json.str " rush "),
          ("dangerously_allow_all", Json.bool true)]⟩).trace).map SpawnArgs.args =
      [["-m", "rush", "--dangerously-allow-all", "--log-level", "error", "--no-ide",
        "--no-jetbrains", "-x", "hi", "--stream-json"]] :=
  (handleCall_argument_list sampleWorld none
    ⟨"amp_run", some [("prompt", Json.str "hi"), ("mode", Json.str " rush "),
      ("dangerously_allow_all", Json.bool true)]⟩ "hi" "hi" " rush "
    (Or.inl rfl) (by rfl) (by rfl) (by rfl)).trans (by decide)

theorem effectivePrompt_resume_some (threadId : Option Json) (state : StoreState)
    (projectKey t : Json) (prompt text : String)
    (href : storedThread threadId state projectKey = .ok (some t)) (ht : t.truthy = true)
    (htext : t.toJsString = some text) :
    effectivePrompt "amp_resume" threadId state projectKey prompt =
      .ok (some ("@" ++ text ++ "\n" ++ prompt)) := by
  simp [effectivePrompt, href, ht, htext]

theorem effectivePrompt_resume_none (threadId : Option Json) (state : StoreState)
    (projectKey : Json) (prompt : String) (ref : Option Json)
    (href : storedThread threadId state projectKey = .ok ref)
    (hfalsy : truthyOpt ref = false) :
    effectivePrompt "amp_resume" threadId state projectKey prompt = .ok none := by
  unfold effectivePrompt
  rw [href]
  cases ref with
  | none => simp
  | some t =>
    have : t.truthy = false := hfalsy
    simp [this]

/-- Claim C7, amended: on an `amp_resume` request with a valid prompt the thread
reference is the argument `thread_id` when that is given (truthy), else the `session_id`
stored under the resolved project key, looked up under the text that key converts to.
When the reference so obtained is absent or falsy the handler returns, without throwing,
the text `error: no stored session for this project; run amp_run first or pass
thread_id`, having only resolved the key and read the state file (no child, no write,
file unchanged). When it is a reference `t` that converts to the text `text`, and the
mode is a string when given, the child is spawned once and the prompt it is passed is
`@` followed by `text`, a newline and the original prompt. -/
theorem handleCall_resume (w : World) (file : Option String) (request : Request)
    (prompt : String)
    (hname : request.name = "amp_resume")
    (hprompt : validPrompt (request.arg "prompt") = some prompt) :
    (truthyOpt (request.arg "thread_id") = true →
      storedThread (request.arg "thread_id") (loadState w.jsonParse file)
        (projectKeyOf w request) = .ok (request.arg "thread_id")) ∧
    (∀ k : String, truthyOpt (request.arg "thread_id") = false →
      (projectKeyOf w request).toJsString = some k →
      storedThread (request.arg "thread_id") (loadState w.jsonParse file)
        (projectKeyOf w request) =
        .ok (optField ((loadState w.jsonParse file).projects.elem k) "session_id")) ∧
    (∀ ref : Option Json,
      storedThread (request.arg "thread_id") (loadState w.jsonParse file)
        (projectKeyOf w request) = .ok ref →
      truthyOpt ref = false →
      handleCall w file request =
        ⟨.ok "error: no stored session for this project; run amp_run first or pass thread_id",
          [Effect.resolveKey (orDefault (request.arg "project_dir") (Json.str w.cwd)),
            Effect.readState], file⟩) ∧
    (∀ (t : Json) (text m : String),
      storedThread (request.arg "thread_id") (loadState w.jsonParse file)
        (projectKeyOf w request) = .ok (some t) →
      t.truthy = true →
      t.toJsString = some text →
      orDefault (request.arg "mode") (Json.str (defaultMode w)) = Json.str m →
      (spawnCalls (handleCall w file request).trace).map SpawnArgs.args =
        [(if jsTrim m ≠ "" then ["-m", jsTrim m] else []) ++
          (if truthyOpt (request.arg "dangerously_allow_all") = true then
            ["--dangerously-allow-all"] else []) ++
          ["--log-level", "error", "--no-ide", "--no-jetbrains"] ++
          ["-x", "@" ++ text ++ "\n" ++ prompt, "--stream-json"]]) := by
  unfold projectKeyOf
  refine ⟨?_, ?_, ?_, ?_⟩
  · intro h
    simp [storedThread, h]
  · intro k h hk
    simp [storedThread, h, hk]
  · intro ref href hfalsy
    have hn : ¬ (request.name ≠ "amp_run" ∧ request.name ≠ "amp_resume") := by simp [hname]
    unfold handleCall
    rw [if_neg hn, hprompt]
    simp only [hname, effectivePrompt_resume_none _ _ _ _ ref href hfalsy]
  · intro t text m href ht htext hmode
    rw [handleCall_spawnCalls w file request prompt _ _ (Or.inr hname) hprompt
      (by rw [hname]; exact effectivePrompt_resume_some _ _ _ _ prompt text href ht htext)
      (buildArgs_eq _ _ _ _ m hmode)]
    rfl

theorem handleCall_resume_witness :
    handleCall sampleWorld none ⟨"amp_resume", some [("prompt", Json.str "go")]⟩ =
      ⟨.ok "error: no stored session for this project; run amp_run first or pass thread_id",
        [Effect.resolveKey (Json.str "/home/u/proj"), Effect.readState], none⟩ ∧
    (spawnCalls (handleCall sampleWorld (some sampleStoreText)
        ⟨"amp_resume", some [("prompt", Json.str "go")]⟩).trace).map SpawnArgs.args =
      [["-m", "free", "--log-level", "error", "--no-ide", "--no-jetbrains",
        "-x", "@T1\ngo", "--stream-json"]] ∧
    (spawnCalls (handleCall sampleWorld none
        ⟨"amp_resume", some [("prompt", Json.str "go"),
          ("thread_id", Json.num true "1e+21")]⟩).trace).map SpawnArgs.args =
      [["-m", "free", "--log-level", "error", "--no-ide", "--no-jetbrains",
        "-x", "@1e+21\ngo", "--stream-json"]] :=
  ⟨(handleCall_resume sampleWorld none ⟨"amp_resume", some [("prompt", Json.str "go")]⟩ "go"
      rfl (by rfl)).2.2.1 none (by rfl) (by rfl),
    ((handleCall_resume sampleWorld (some sampleStoreText)
      ⟨"amp_resume", some [("prompt", Json.str "go")]⟩ "go" rfl (by rfl)).2.2.2
      (Json.str "T1") "T1" "free" (by rfl) rfl (by rfl) (by rfl)).trans (by decide),
    ((handleCall_resume sampleWorld none
      ⟨"amp_resume", some [("prompt", Json.str "go"), ("thread_id", Json.num true "1e+21")]⟩
      "go" rfl (by rfl)).2.2.2
      (Json.num true "1e+21") "1e+21" "free" (by rfl) rfl (by rfl) (by rfl)).trans (by decide)⟩

/-- Claim C7 as stated fails on two requests with a valid prompt. On the first, without
`thread_id` and with an empty store, neither reference exists, yet the handler throws
instead of returning the error text: `project_dir` is an object with an own property
`toString`, which `fs.realpathSync` refuses and `state.projects[projectKey]` cannot
convert to a property key. On the second a `thread_id` is given, yet no prompt is passed
to the agent: `mode` is a number, `(mode || DEFAULT_MODE).trim` is not a function, and
the handler throws before it spawns. -/
theorem handleCall_resume_counterexample :
    (validPrompt (Request.arg ⟨"amp_resume", some [("prompt", Json.str "go"),
        ("project_dir", unprintable)]⟩ "prompt") = some "go" ∧
      Request.arg ⟨"amp_resume", some [("prompt", Json.str "go"),
        ("project_dir", unprintable)]⟩ "thread_id" = none ∧
      (loadState sampleWorld.jsonParse none).projects = Json.obj [] ∧
      handleCall sampleWorld none
          ⟨"amp_resume", some [("prompt", Json.str "go"), ("project_dir", unprintable)]⟩ =
        ⟨.error "TypeError: Cannot convert object to primitive value",
          [Effect.resolveKey unprintable, Effect.readState], none⟩) ∧
    (handleCall sampleWorld none
        ⟨"amp_resume", some [("prompt", Json.str "go"), ("thread_id", Json.str "T9"),
          ("mode", Json.num true "5")]⟩ =
      ⟨.error "TypeError: (mode || DEFAULT_MODE).trim is not a function",
        [Effect.resolveKey (Json.str "/home/u/proj"), Effect.readState], none⟩) := by
  refine ⟨⟨by rfl, by rfl, by rfl, by rfl⟩, by rfl⟩

theorem lookup_setKey_self (props : List (String × Json)) (k : String) (v : Json) :
    (setKey props k v).lookup k = some v := by
  induction props with
  | nil => simp [setKey, List.lookup]
  | cons p rest ih =>
    obtain ⟨k1, v1⟩ := p
    unfold setKey
    by_cases h : k1 = k
    · simp [h, List.lookup]
    · have hne : (k == k1) = false := by
        simp only [beq_eq_false_iff_ne, ne_eq]
        exact fun e => h e.symm
      simp [h, List.lookup, hne, ih]

theorem scanValue_session_truthy (v : Json) (acc acc1 : Scan)
    (hinv : ∀ s, acc.sessionId = some s → s.truthy = true)
    (h : scanValue v acc = .ok acc1) :
    ∀ s, acc1.sessionId = some s → s.truthy = true := by
  rw [scanValue_eq] at h
  have hstep : ∀ s, (sessionStep v acc).sessionId = some s → s.truthy = true := by
    intro s hs
    rw [sessionStep_sessionId] at hs
    cases ha : acc.sessionId with
    | some t =>
      rw [ha] at hs
      cases hs
      exact hinv _ ha
    | none =>
      rw [ha] at hs
      simp only [sessionOf] at hs
      by_cases ht : truthyOpt (v.field "session_id") = true
      · rw [if_pos ht] at hs
        rw [hs] at ht
        exact ht
      · rw [if_neg ht] at hs
        cases hs
  by_cases hw : wellShaped v = true
  · rw [assistantStep_wellShaped v _ hw] at h
    cases h
    intro s hs
    rw [resultStep_sessionId, assistantPure_sessionId] at hs
    exact hstep s hs
  · rw [assistantStep_not_wellShaped v _ (by simpa using hw)] at h
    cases h

theorem scanLines_session_truthy (jsonParse : String → Option Json) (lines : List String) :
    ∀ acc acc1 : Scan, (∀ s, acc.sessionId = some s → s.truthy = true) →
      scanLines jsonParse acc lines = .ok acc1 →
      ∀ s, acc1.sessionId = some s → s.truthy = true := by
  induction lines with
  | nil =>
    intro acc acc1 hinv h
    cases h
    exact hinv
  | cons l rest ih =>
    intro acc acc1 hinv h
    simp only [scanLines] at h
    cases hl : scanLine jsonParse acc l with
    | error e => rw [hl] at h; cases h
    | ok acc2 =>
      rw [hl] at h
      refine ih acc2 acc1 ?_ h
      unfold scanLine at hl
      cases hp : jsonParse l with
      | none =>
        rw [hp] at hl
        cases hl
        exact hinv
      | some v =>
        rw [hp] at hl
        exact scanValue_session_truthy v acc acc2 hinv hl

theorem parseStreamResult_session_truthy (jsonParse : String → Option Json)
    (stdout : String) (d : Decoded) (s : Json)
    (h : parseStreamResult jsonParse stdout = .ok d) (hs : d.sessionId = some s) :
    s.truthy = true := by
  unfold parseStreamResult at h
  cases hsl : scanLines jsonParse Scan.init (streamLines stdout) with
  | error e => rw [hsl] at h; cases h
  | ok acc =>
    rw [hsl] at h
    cases h
    exact scanLines_session_truthy jsonParse _ Scan.init acc (by intro s h; cases h) hsl s hs

theorem handleCall_of_run (w : World) (file : Option String) (request : Request)
    (prompt effPrompt : String) (args : List String) (result : ProcResult)
    (hname : request.name = "amp_run" ∨ request.name = "amp_resume")
    (hprompt : validPrompt (request.arg "prompt") = some prompt)
    (heff : effectivePrompt request.name (request.arg "thread_id")
      (loadState w.jsonParse file)
      (resolveProjectKey w.realpath (orDefault (request.arg "project_dir") (Json.str w.cwd)))
      prompt = .ok (some effPrompt))
    (hargs : buildArgs (request.arg "dangerously_allow_all") (request.arg "mode")
      (defaultMode w) effPrompt = .ok args)
    (hrun : w.run
      { command := orDefault (request.arg "amp_bin") (Json.str (defaultBin w))
        args := args
        cwd := orDefault (request.arg "project_dir") (Json.str w.cwd)
        stdin := request.arg "stdin"
        timeoutSec := request.arg "timeout_sec" } = .ok result) :
    handleCall w file request =
      afterRun w file (loadState w.jsonParse file)
        (resolveProjectKey w.realpath (orDefault (request.arg "project_dir") (Json.str w.cwd)))
        ([Effect.resolveKey (orDefault (request.arg "project_dir") (Json.str w.cwd)),
          Effect.readState] ++
          [Effect.spawn
            { command := orDefault (request.arg "amp_bin") (Json.str (defaultBin w))
              args := args
              cwd := orDefault (request.arg "project_dir") (Json.str w.cwd)
              stdin := request.arg "stdin"
              timeoutSec := request.arg "timeout_sec" }])
        result := by
  have hn : ¬ (request.name ≠ "amp_run" ∧ request.name ≠ "amp_resume") := by
    rcases hname with h | h <;> simp [h]
  unfold handleCall
  rw [if_neg hn, hprompt]
  simp only [heff, hargs, hrun]

theorem afterRun_stores (w : World) (file : Option String)
    (props pprops : List (String × Json)) (projectKey : Json) (k : String)
    (trace : List Effect) (result : ProcResult) (d : Decoded) (s : Json)
    (hprojects : props.lookup "projects" = some (Json.obj pprops))
    (hk : projectKey.toJsString = some k) (hproto : k ≠ "__proto__")
    (hdec : parseStreamResult w.jsonParse result.stdout = .ok d)
    (hsid : d.sessionId = some s) (hwrite : w.canWrite = true) :
    afterRun w file (StoreState.object props) projectKey trace result =
      ⟨.ok (formatResult result d.resultText d.errorText),
        trace ++ [Effect.writeState (w.jsonStringify (storeAfterRun props pprops k s w.now))],
        some (w.jsonStringify (storeAfterRun props pprops k s w.now))⟩ := by
  have ht : s.truthy = true := parseStreamResult_session_truthy _ _ d s hdec hsid
  simp [afterRun, hdec, hsid, ht, hk, StoreState.projects, hprojects, assignElem, hproto,
    StoreState.setProjects, StoreState.toJson, hwrite, storeAfterRun]

theorem loadState_object (jsonParse : String → Option Json) (content : String)
    (props : List (String × Json)) (pprops : List (String × Json))
    (hparse : jsonParse content = some (Json.obj props))
    (hprojects : props.lookup "projects" = some (Json.obj pprops)) :
    loadState jsonParse (some content) = StoreState.object props := by
  simp [loadState, hparse, Json.truthy, Json.typeofObject, hprojects]

/-- Run then resume on a store that is a mapping: let `loadState` return an object
whose `projects` is an object, let an `amp_run` on a project key that converts to the
text `k`, other than `__proto__`, spawn a child whose stdout decodes to the session
identifier `s`, printed as `text`, and let the state file be writable and the JSON codec
round-trip the store written. Then the run completes and saves the store, and an
`amp_resume` on the same key without `thread_id` spawns the child with the prompt `@` +
`text` + newline + the resume prompt. -/
theorem run_then_resume (w : World) (file : Option String) (runReq resumeReq : Request)
    (prompt1 prompt2 m1 m2 k text : String) (result : ProcResult) (d : Decoded) (s : Json)
    (props pprops : List (String × Json))
    (hrunName : runReq.name = "amp_run") (hresName : resumeReq.name = "amp_resume")
    (hp1 : validPrompt (runReq.arg "prompt") = some prompt1)
    (hp2 : validPrompt (resumeReq.arg "prompt") = some prompt2)
    (hm1 : orDefault (runReq.arg "mode") (Json.str (defaultMode w)) = Json.str m1)
    (hm2 : orDefault (resumeReq.arg "mode") (Json.str (defaultMode w)) = Json.str m2)
    (hkey : projectKeyOf w resumeReq = projectKeyOf w runReq)
    (hk : (projectKeyOf w runReq).toJsString = some k)
    (hproto : k ≠ "__proto__")
    (hnothread : resumeReq.arg "thread_id" = none)
    (hstore : loadState w.jsonParse file = StoreState.object props)
    (hprojects : props.lookup "projects" = some (Json.obj pprops))
    (hrun : ∀ call ∈ spawnCalls (handleCall w file runReq).trace, w.run call = .ok result)
    (hdec : parseStreamResult w.jsonParse result.stdout = .ok d)
    (hsid : d.sessionId = some s)
    (htext : s.toJsString = some text)
    (hwrite : w.canWrite = true)
    (hcodec : w.jsonParse (w.jsonStringify (storeAfterRun props pprops k s w.now)) =
      some (storeAfterRun props pprops k s w.now)) :
    ∃ out content,
      (handleCall w file runReq).result = .ok out ∧
      (handleCall w file runReq).file = some content ∧
      (spawnCalls (handleCall w (some content) resumeReq).trace).map SpawnArgs.args =
        [(if jsTrim m2 ≠ "" then ["-m", jsTrim m2] else []) ++
          (if truthyOpt (resumeReq.arg "dangerously_allow_all") = true then
            ["--dangerously-allow-all"] else []) ++
          ["--log-level", "error", "--no-ide", "--no-jetbrains"] ++
          ["-x", "@" ++ text ++ "\n" ++ prompt2, "--stream-json"]] := by
  have ht : s.truthy = true := parseStreamResult_session_truthy _ _ d s hdec hsid
  unfold projectKeyOf at hk hkey
  have heff1 : effectivePrompt runReq.name (runReq.arg "thread_id")
      (loadState w.jsonParse file)
      (resolveProjectKey w.realpath (orDefault (runReq.arg "project_dir") (Json.str w.cwd)))
      prompt1 = .ok (some prompt1) := by
    simp [effectivePrompt, hrunName]
  have hargs1 := buildArgs_eq (runReq.arg "dangerously_allow_all") (runReq.arg "mode")
    (defaultMode w) prompt1 m1 hm1
  have hcalls := handleCall_spawnCalls w file runReq prompt1 prompt1 _ (Or.inl hrunName) hp1
    heff1 hargs1
  have hr := hrun _ (by rw [hcalls]; exact List.mem_singleton.2 rfl)
  have hrunEq := handleCall_of_run w file runReq prompt1 prompt1 _ result (Or.inl hrunName)
    hp1 heff1 hargs1 hr
  rw [hstore, afterRun_stores w file props pprops _ k _ result d s hprojects hk hproto hdec
    hsid hwrite] at hrunEq
  refine ⟨_, _, by rw [hrunEq], by rw [hrunEq], ?_⟩
  have hload := loadState_object w.jsonParse _ _ _ hcodec
    (lookup_setKey_self props "projects" _)
  have href : storedThread (resumeReq.arg "thread_id")
      (loadState w.jsonParse (some (w.jsonStringify (storeAfterRun props pprops k s w.now))))
      (resolveProjectKey w.realpath
        (orDefault (resumeReq.arg "project_dir") (Json.str w.cwd))) = .ok (some s) := by
    rw [hnothread, hkey, hload]
    simp [storedThread, truthyOpt, hk, StoreState.projects, lookup_setKey_self,
      Json.elem, optField, Json.field, List.lookup]
  have hfin := handleCall_spawnCalls w _ resumeReq prompt2 _ _ (Or.inr hresName) hp2
    (by rw [hresName]; exact effectivePrompt_resume_some _ _ _ _ prompt2 text href ht htext)
    (buildArgs_eq _ _ _ _ m2 hm2)
  rw [hfin]
  rfl

theorem run_then_resume_witness :
    ∃ out content,
      (handleCall sampleWorld none ⟨"amp_run", some [("prompt", Json.str "hi")]⟩).result =
        .ok out ∧
      (handleCall sampleWorld none ⟨"amp_run", some [("prompt", Json.str "hi")]⟩).file =
        some content ∧
      (spawnCalls (handleCall sampleWorld (some content)
          ⟨"amp_resume", some [("prompt", Json.str "go")]⟩).trace).map SpawnArgs.args =
        [["-m", "free", "--log-level", "error", "--no-ide", "--no-jetbrains",
          "-x", "@T1\ngo", "--stream-json"]] := by
  obtain ⟨out, content, h1, h2, h3⟩ :=
    run_then_resume sampleWorld none ⟨"amp_run", some [("prompt", Json.str "hi")]⟩
      ⟨"amp_resume", some [("prompt", Json.str "go")]⟩ "hi" "go" "free" "free"
      "/home/u/proj" "T1"
      ⟨some 0, lineT1 ++ "\n" ++ lineDone ++ "\n", "", false⟩
      ⟨some (Json.str "T1"), "done", ""⟩ (Json.str "T1") [("projects", Json.obj [])] []
      rfl rfl (by rfl) (by rfl) (by rfl) (by rfl) (by rfl) (by rfl) (by decide) (by rfl)
      (by rfl) (by rfl) (fun _ _ => rfl) (by rfl) rfl rfl rfl (by rfl)
  exact ⟨out, content, h1, h2, h3.trans (by decide)⟩

/-- Claim C6 fails on the code for a state file whose `projects` is a JSON array:
`loadState` keeps the array, the run that decodes the session identifier `T1` puts the
record on it as a property that `JSON.stringify` leaves out, the file is written back
as it was, and the resume on the same project directory without `thread_id` answers
that no session is stored instead of building the prompt `@T1` + newline + `go`. -/
theorem run_then_resume_array_projects :
    listWorld.jsonParse listStoreText = some listStore ∧
    loadState listWorld.jsonParse (some listStoreText) =
      StoreState.object [("projects", Json.arr [])] ∧
    parseStreamResult listWorld.jsonParse (lineT1 ++ "\n" ++ lineDone ++ "\n") =
      .ok ⟨some (Json.str "T1"), "done", ""⟩ ∧
    handleCall listWorld (some listStoreText) ⟨"amp_run", some [("prompt", Json.str "hi")]⟩ =
      ⟨.ok "done",
        [Effect.resolveKey (Json.str "/home/u/proj"), Effect.readState,
          Effect.spawn ⟨Json.str "amp", ["-m", "free", "--log-level", "error", "--no-ide",
            "--no-jetbrains", "-x", "hi", "--stream-json"], Json.str "/home/u/proj", none,
            none⟩,
          Effect.writeState listStoreText],
        some listStoreText⟩ ∧
    handleCall listWorld (some listStoreText)
        ⟨"amp_resume", some [("prompt", Json.str "go")]⟩ =
      ⟨.ok "error: no stored session for this project; run amp_run first or pass thread_id",
        [Effect.resolveKey (Json.str "/home/u/proj"), Effect.readState],
        some listStoreText⟩ := by
  refine ⟨by rfl, by rfl, by rfl, by rfl, by rfl⟩

/-! ### The session store -/

theorem loadState_fallback (jsonParse : String → Option Json) :
    loadState jsonParse none = emptyStore ∧
    (∀ raw, jsonParse raw = none → loadState jsonParse (some raw) = emptyStore) ∧
    (∀ raw v, jsonParse raw = some v → v.truthy = false ∨ v.typeofObject = false →
      loadState jsonParse (some raw) = emptyStore) ∧
    (∀ raw props, jsonParse raw = some (Json.obj props) →
      (∀ p, props.lookup "projects" = some p → p.truthy = false ∨ p.typeofObject = false) →
      loadState jsonParse (some raw) =
        StoreState.object (setKey props "projects" (Json.obj []))) := by
  refine ⟨rfl, ?_, ?_, ?_⟩
  · intro raw h
    simp [loadState, h]
  · intro raw v h hv
    rcases hv with hv | hv <;> simp [loadState, h, hv]
  · intro raw props h hp
    have t1 : (Json.obj props).truthy = true := rfl
    have t2 : (Json.obj props).typeofObject = true := rfl
    cases hl : props.lookup "projects" with
    | none => simp [loadState, h, hl, t1, t2]
    | some p =>
      rcases hp p hl with hv | hv <;> simp [loadState, h, hl, hv, t1, t2]

/-- Claim C10 fails on a state file holding a JSON array: on the text `[]`, a JSON value
that is not an object, `loadState` does not return the empty store but the parsed array
with a `projects` property put on it, which `JSON.stringify` leaves out. A run that
decodes the session `T1` therefore writes `[]` back, and the resume that follows finds
no stored session. -/
theorem loadState_array_not_empty_store :
    loadState arrayWorld.jsonParse (some "[]") = StoreState.array [] (Json.obj []) ∧
    loadState arrayWorld.jsonParse (some "[]") ≠ emptyStore ∧
    (loadState arrayWorld.jsonParse (some "[]")).toJson = Json.arr [] ∧
    handleCall arrayWorld (some "[]") ⟨"amp_run", some [("prompt", Json.str "hi")]⟩ =
      ⟨.ok "done",
        [Effect.resolveKey (Json.str "/home/u/proj"), Effect.readState,
          Effect.spawn ⟨Json.str "amp", ["-m", "free", "--log-level", "error", "--no-ide",
            "--no-jetbrains", "-x", "hi", "--stream-json"], Json.str "/home/u/proj", none,
            none⟩,
          Effect.writeState "[]"],
        some "[]"⟩ ∧
    handleCall arrayWorld (some "[]") ⟨"amp_resume", some [("prompt", Json.str "go")]⟩ =
      ⟨.ok "error: no stored session for this project; run amp_run first or pass thread_id",
        [Effect.resolveKey (Json.str "/home/u/proj"), Effect.readState], some "[]"⟩ := by
  refine ⟨by rfl, ?_, by rfl, by rfl, by rfl⟩
  intro h
  have h2 : loadState arrayWorld.jsonParse (some "[]") = StoreState.array [] (Json.obj []) := by
    rfl
  rw [h2] at h
  cases h
